import Mathlib

/-!
Verification of the record-store utilities (contact manager, to-do list
manager, password generator) against their design document.

The Python programs are shallowly embedded: Python values become the
inductive type `PyVal` (dicts are ordered association lists, as Python
dicts preserve insertion order), in-place list mutation becomes explicit
state passing, `input()` calls become function arguments carrying the
text the user eventually supplies, and exceptions become `Except PyErr`.
The persisted JSON file is modelled by `FileState`: absent, present but
unparseable, or present and parsing to a `PyVal`.
-/

/-- Python runtime errors that the embedded code can raise. -/
inductive PyErr where
  | valueError
  | typeError
  | attributeError
  | keyError
deriving DecidableEq, Repr

/-- A Python value as used by these programs: `None`, `bool`, `int`,
`str`, `list`, and `dict` (an ordered association list, since Python
dicts preserve insertion order and these programs never rely on
hashing). -/
inductive PyVal where
  | none
  | bool (b : Bool)
  | int (n : Int)
  | str (s : String)
  | list (xs : List PyVal)
  | dict (kvs : List (PyVal × PyVal))

/-- A Python dict: the ordered key/value pairs. Records of both stores
are dicts. -/
abbrev Record := List (PyVal × PyVal)

/-- A store: the in-memory list of records (`contacts` / `tasks`). -/
abbrev Store := List Record

mutual
/-- Python `==` on values.  `bool` is a subclass of `int` in Python, so
`True == 1` and `False == 0`; dicts compare as mappings (same number of
keys and every key/value pair of the left dict present in the right). -/
def pyEq : PyVal → PyVal → Bool
  | .none, .none => true
  | .bool a, .bool b => a == b
  | .bool a, .int n => (if a then (1 : Int) else 0) == n
  | .int n, .bool a => n == (if a then (1 : Int) else 0)
  | .int a, .int b => a == b
  | .str a, .str b => a == b
  | .list xs, .list ys => pyEqList xs ys
  | .dict xs, .dict ys => xs.length == ys.length && pyEqEntries xs ys
  | _, _ => false
termination_by a b => sizeOf a + sizeOf b
decreasing_by all_goals simp_wf; all_goals omega
/-- Elementwise Python `==` on lists. -/
def pyEqList : List PyVal → List PyVal → Bool
  | [], [] => true
  | x :: xs, y :: ys => pyEq x y && pyEqList xs ys
  | _, _ => false
termination_by xs ys => sizeOf xs + sizeOf ys
decreasing_by all_goals simp_wf; all_goals omega
/-- Every entry of the first dict is present (by `==`) in the second.
(Real Python dicts never hold duplicate keys, so together with the
length check this is mapping equality.) -/
def pyEqEntries : List (PyVal × PyVal) → List (PyVal × PyVal) → Bool
  | [], _ => true
  | (k, v) :: rest, ys => pyLookupEq ys k v && pyEqEntries rest ys
termination_by xs ys => sizeOf xs + sizeOf ys
decreasing_by all_goals simp_wf; all_goals omega
/-- The dict holds key `k` (by `==`) with a value `==`-equal to `v`. -/
def pyLookupEq : List (PyVal × PyVal) → PyVal → PyVal → Bool
  | [], _, _ => false
  | (k2, v2) :: rest, k, v => if pyEq k2 k then pyEq v2 v else pyLookupEq rest k v
termination_by ys k v => sizeOf ys + sizeOf k + sizeOf v
decreasing_by all_goals simp_wf; all_goals omega
end

/-- Python `d.get(k, default)`: value of the first (only, in a real
dict) entry whose key is `==`-equal to `k`, else the default. -/
def pyGet (c : Record) (k : PyVal) (dflt : PyVal) : PyVal :=
  match c.find? (fun kv => pyEq kv.1 k) with
  | some kv => kv.2
  | Option.none => dflt

/-- Python `d[k]`: like `get` but raising `KeyError` when absent. -/
def pyIndex (c : Record) (k : PyVal) : Except PyErr PyVal :=
  match c.find? (fun kv => pyEq kv.1 k) with
  | some kv => .ok kv.2
  | Option.none => .error .keyError

/-- Python `d[k] = v`: replace the value of the entry whose key equals
`k`, keeping its position; append the pair when the key is new. -/
def dictInsert : Record → PyVal → PyVal → Record
  | [], k, v => [(k, v)]
  | kv :: rest, k, v =>
    if pyEq kv.1 k then (kv.1, v) :: rest
    else kv :: dictInsert rest k v

/-- Python truthiness: `None` and zero/empty values are falsy. -/
def pyTruthy : PyVal → Bool
  | .none => false
  | .bool b => b
  | .int n => n != 0
  | .str s => s != ""
  | .list xs => !xs.isEmpty
  | .dict kvs => !kvs.isEmpty

/-- The characters removed by Python `str.strip()` (ASCII whitespace;
these programs never feed it other Unicode whitespace). -/
def pySpace (c : Char) : Bool :=
  c == ' ' || c == '\t' || c == '\n' || c == '\x0d' || c == '\x0b' || c == '\x0c'

/-- Python `str.strip()`. -/
def pyStrip (s : String) : String :=
  String.mk (((s.toList.dropWhile pySpace).reverse.dropWhile pySpace).reverse)

/-- Python `str.lower()` (ASCII case mapping, which is all these
programs use). -/
def pyLower (s : String) : String :=
  String.mk (s.toList.map Char.toLower)

/-- `startsWithChars hay needle`: `needle` is a prefix of `hay`. -/
def startsWithChars : List Char → List Char → Bool
  | _, [] => true
  | [], _ :: _ => false
  | c :: cs, d :: ds => c == d && startsWithChars cs ds

/-- `containsChars hay needle`: Python `needle in hay` on strings
(contiguous substring; the empty needle always matches). -/
def containsChars : List Char → List Char → Bool
  | [], needle => needle.isEmpty
  | c :: cs, needle => startsWithChars (c :: cs) needle || containsChars cs needle

/-- Python `needle in hay` for strings. -/
def pyContains (hay needle : String) : Bool :=
  containsChars hay.toList needle.toList

/-- Digit run inside Python `int(str)`: digits with single underscores
allowed between digits, accumulating the value. -/
def pyDigitsGo (acc : Nat) : List Char → Option Nat
  | [] => some acc
  | c :: cs =>
    if c.isDigit then pyDigitsGo (acc * 10 + (c.toNat - 48)) cs
    else if c == '_' then
      match cs with
      | d :: ds =>
        if d.isDigit then pyDigitsGo (acc * 10 + (d.toNat - 48)) ds else Option.none
      | [] => Option.none
    else Option.none

/-- Nonempty digit run (the part of `int(str)` after the sign). -/
def pyDigits : List Char → Option Nat
  | [] => Option.none
  | c :: cs => if c.isDigit then pyDigitsGo (c.toNat - 48) cs else Option.none

/-- Python `int(str)` in base 10: surrounding whitespace stripped, an
optional sign, then digits (underscores allowed between digits);
`Option.none` models the `ValueError` on any other input. -/
def pyParseInt (s : String) : Option Int :=
  match (pyStrip s).toList with
  | '+' :: rest => (pyDigits rest).map Int.ofNat
  | '-' :: rest => (pyDigits rest).map (fun n => -(Int.ofNat n))
  | rest => (pyDigits rest).map Int.ofNat

/-- The persisted file as the loader sees it: missing, present but not
valid JSON (`json.load` raises), or present and parsing to a value. -/
inductive FileState where
  | absent
  | invalid
  | valid (v : PyVal)

/-- Hashable Python values (usable as dict keys): everything here but
lists and dicts. -/
def pyHashable : PyVal → Bool
  | .list _ => false
  | .dict _ => false
  | _ => true

/-- One element of `dict(seq)`: the element must iterate to exactly two
items (a two-element list, a two-character string, or a two-key dict,
which iterates to its keys); a first item that is unhashable raises
`TypeError`, a wrong length raises `ValueError`, and a non-iterable
element raises `TypeError`. -/
def pairConv : PyVal → Except PyErr (PyVal × PyVal)
  | .list [a, b] => if pyHashable a then .ok (a, b) else .error .typeError
  | .list _ => .error .valueError
  | .str s =>
    match s.toList with
    | [c1, c2] => .ok (.str (String.mk [c1]), .str (String.mk [c2]))
    | _ => .error .valueError
  | .dict [(k1, _), (k2, _)] => .ok (k1, k2)
  | .dict _ => .error .valueError
  | _ => .error .typeError

/-- Build a dict from key/value pairs in order (later duplicates
overwrite earlier values in place, as Python assignment does). -/
def dictFromPairs (ps : List (PyVal × PyVal)) : Record :=
  ps.foldl (fun d kv => dictInsert d kv.1 kv.2) []

/-- Python `dict(x)` as the loaders apply it to each JSON entry: a dict
is copied, a list is read as key/value pairs, an empty string gives an
empty dict, and everything else raises (`ValueError`/`TypeError`). -/
def dictConv : PyVal → Except PyErr Record
  | .dict kvs => .ok kvs
  | .list xs =>
    match xs.mapM pairConv with
    | .ok ps => .ok (dictFromPairs ps)
    | .error e => .error e
  | .str s => if s.toList.isEmpty then .ok [] else .error .valueError
  | _ => .error .typeError

/-- `json.dump` key coercion: strings stay, ints/bools/`None` become
their JSON spellings, anything else raises `TypeError`. -/
def dumpKey : PyVal → Except PyErr PyVal
  | .str s => .ok (.str s)
  | .int n => .ok (.str (toString n))
  | .bool b => .ok (.str (if b then "true" else "false"))
  | .none => .ok (.str "null")
  | _ => .error .typeError

mutual
/-- The value `json.load` reads back from what `json.dump` wrote:
identity on scalars and lists, dict keys coerced to strings (with a
reader that keeps the last of any colliding keys); `TypeError` models
`json.dump` raising on a non-serializable key. -/
def dumpLoadVal : PyVal → Except PyErr PyVal
  | .none => .ok .none
  | .bool b => .ok (.bool b)
  | .int n => .ok (.int n)
  | .str s => .ok (.str s)
  | .list xs =>
    match dumpLoadList xs with
    | .ok ys => .ok (.list ys)
    | .error e => .error e
  | .dict kvs =>
    match dumpLoadEntries kvs with
    | .ok ps => .ok (.dict (dictFromPairs ps))
    | .error e => .error e
termination_by v => sizeOf v
decreasing_by all_goals simp_wf; all_goals omega
/-- `dumpLoadVal` over the elements of a JSON array. -/
def dumpLoadList : List PyVal → Except PyErr (List PyVal)
  | [] => .ok []
  | x :: xs =>
    match dumpLoadVal x, dumpLoadList xs with
    | .ok y, .ok ys => .ok (y :: ys)
    | .error e, _ => .error e
    | _, .error e => .error e
termination_by xs => sizeOf xs
decreasing_by all_goals simp_wf; all_goals omega
/-- `dumpLoadVal` over the entries of a JSON object: coerce each key,
recurse into each value. -/
def dumpLoadEntries : List (PyVal × PyVal) → Except PyErr (List (PyVal × PyVal))
  | [] => .ok []
  | (k, v) :: rest =>
    match dumpKey k, dumpLoadVal v, dumpLoadEntries rest with
    | .ok k2, .ok v2, .ok ps => .ok ((k2, v2) :: ps)
    | .error e, _, _ => .error e
    | _, .error e, _ => .error e
    | _, _, .error e => .error e
termination_by kvs => sizeOf kvs
decreasing_by all_goals simp_wf; all_goals omega
end

namespace ContactManager

/-- Convert the entries of a parsed JSON array with `dict(entry)`,
stopping at the first error (the comprehension in `load_contacts`). -/
def loadEntries : List PyVal → Except PyErr Store
  | [] => .ok []
  | x :: xs =>
    match dictConv x with
    | .error e => .error e
    | .ok r =>
      match loadEntries xs with
      | .error e => .error e
      | .ok rs => .ok (r :: rs)

/-- `load_contacts`: `[]` when the file is absent, unparseable
(`json.JSONDecodeError`/`IOError` are caught), or parses to a
non-list; on a parsed list, `[dict(entry) for entry in data]`, whose
`dict()` errors are NOT caught and so escape. -/
def load_contacts : FileState → Except PyErr Store
  | .absent => .ok []
  | .invalid => .ok []
  | .valid (.list entries) => loadEntries entries
  | .valid _ => .ok []

/-- `save_contacts`: write the store as a JSON array of its record
dicts; the `FileState` holds what a later read will parse.
`json.dump`'s `TypeError` propagates (only `IOError` is caught). -/
def save_contacts (contacts : Store) : Except PyErr FileState :=
  match dumpLoadVal (.list (contacts.map .dict)) with
  | .ok v => .ok (.valid v)
  | .error e => .error e

/-- `isinstance(x, int)` in Python is also true of `bool` (a subclass),
and `max` then treats `True`/`False` as `1`/`0`. -/
def intId : PyVal → Option Int
  | .int n => some n
  | .bool b => some (if b then 1 else 0)
  | _ => Option.none

/-- `[c.get("id", 0) for c in contacts if isinstance(c.get("id"), int)]`. -/
def existingIds (contacts : Store) : List Int :=
  contacts.filterMap (fun c => intId (pyGet c (.str "id") .none))

/-- Python `max(xs, default=d)`. -/
def maxD (xs : List Int) (d : Int) : Int :=
  match xs with
  | [] => d
  | x :: rest => rest.foldl max x

/-- `generate_new_id`: 1 for an empty store, else one more than the
largest existing integer `id` (0 standing in when no entry has one). -/
def generate_new_id (contacts : Store) : Int :=
  if contacts.isEmpty then 1
  else maxD (existingIds contacts) 0 + 1

/-- `add_contact` with the user's four raw inputs. Returns the store
after the call (the in-place `append` precedes `save_contacts`, so it
survives a save error) and the save outcome — `Option.none` when
validation failed and nothing was appended or saved. -/
def add_contact (contacts : Store) (nameIn phoneIn emailIn addressIn : String) :
    Store × Except PyErr (Option FileState) :=
  let name := pyStrip nameIn
  let phone := pyStrip phoneIn
  let email := pyStrip emailIn
  let address := pyStrip addressIn
  if name = "" || phone = "" then (contacts, .ok Option.none)
  else
    let new_contact : Record :=
      [(.str "id", .int (generate_new_id contacts)),
       (.str "name", .str name),
       (.str "phone", .str phone),
       (.str "email", .str email),
       (.str "address", .str address)]
    let contacts2 := contacts ++ [new_contact]
    match save_contacts contacts2 with
    | .ok f => (contacts2, .ok (some f))
    | .error e => (contacts2, .error e)

/-- `c.get(key, "").lower()`: `AttributeError` when the value under the
key is not a string. -/
def lowerField (c : Record) (key : String) : Except PyErr String :=
  match pyGet c (.str key) (.str "") with
  | .str s => .ok (pyLower s)
  | _ => .error .attributeError

/-- The filter test of `search_contacts` on one record:
`query in c.get("name", "").lower() or query in c.get("phone", "").lower()`
— `or` short-circuits, so the phone is not touched when the name
already matches. -/
def contactMatches (query : String) (c : Record) : Except PyErr Bool :=
  match lowerField c "name" with
  | .error e => .error e
  | .ok nm =>
    if pyContains nm query then .ok true
    else
      match lowerField c "phone" with
      | .error e => .error e
      | .ok ph => .ok (pyContains ph query)

/-- The comprehension of `search_contacts`, run over records paired
with their position in `contacts` (the position models Python object
identity: a selected search result IS that element of `contacts`). -/
def searchFilterIdx (query : String) : List (Nat × Record) → Except PyErr (List (Nat × Record))
  | [] => .ok []
  | (i, c) :: rest =>
    match contactMatches query c with
    | .error e => .error e
    | .ok m =>
      match searchFilterIdx query rest with
      | .error e => .error e
      | .ok tail => .ok (if m then (i, c) :: tail else tail)

/-- Search results together with their positions in `contacts`. -/
def searchPairs (query : String) (contacts : Store) : Except PyErr (List (Nat × Record)) :=
  searchFilterIdx query contacts.enum

/-- A display loop over results subscripts `contact['name']` and
`contact['phone']`, raising `KeyError` when one is missing (both the
result printing in `search_contacts` and the listing in
`select_contact` do this). -/
def printResults : Store → Except PyErr Unit
  | [] => .ok ()
  | c :: rest =>
    match pyIndex c (.str "name") with
    | .error e => .error e
    | .ok _ =>
      match pyIndex c (.str "phone") with
      | .error e => .error e
      | .ok _ => printResults rest

/-- `search_contacts` with the raw search input: an empty store returns
`[]` before reading input; otherwise filter on the stripped,
lowercased query and print any results. -/
def search_contacts (contacts : Store) (input : String) : Except PyErr Store :=
  if contacts.isEmpty then .ok []
  else
    let query := pyLower (pyStrip input)
    match searchPairs query contacts with
    | .error e => .error e
    | .ok pairs =>
      let results := pairs.map Prod.snd
      if results.isEmpty then .ok results
      else
        match printResults results with
        | .error e => .error e
        | .ok _ => .ok results

/-- `select_contact` over the search results. `choice` is the input
the selection loop finally accepts: blank (`Option.none`, cancel) or a
1-based number — the loop re-prompts until the number is in range, so
an in-range value is the only way a number exits it. Returns the
0-based position of the selection among the results. -/
def select_from (results : Store) (choice : Option Nat) : Except PyErr (Option Nat) :=
  if results.isEmpty then .ok Option.none
  else
    match printResults results with
    | .error e => .error e
    | .ok _ =>
      match choice with
      | Option.none => .ok Option.none
      | some i =>
        if 1 ≤ i && i ≤ results.length then .ok (some (i - 1)) else .ok Option.none

/-- The field-edit block of `update_contact`: each stripped input that
is non-blank replaces its field; a blank one keeps the current value. -/
def applyContactEdits (contact : Record) (nameIn phoneIn emailIn addressIn : String) : Record :=
  let new_name := pyStrip nameIn
  let new_phone := pyStrip phoneIn
  let new_email := pyStrip emailIn
  let new_address := pyStrip addressIn
  let c1 := if new_name ≠ "" then dictInsert contact (.str "name") (.str new_name) else contact
  let c2 := if new_phone ≠ "" then dictInsert c1 (.str "phone") (.str new_phone) else c1
  let c3 := if new_email ≠ "" then dictInsert c2 (.str "email") (.str new_email) else c2
  if new_address ≠ "" then dictInsert c3 (.str "address") (.str new_address) else c3

/-- `update_contact`: search with the raw query, select one result,
prompt for the four fields (each prompt subscripts the current value),
and store each stripped input that is non-blank, keeping the old value
otherwise; then save. Returns the store after the call and the save
outcome (`Option.none` when no selection was reached, so nothing was
saved). -/
def update_contact (contacts : Store) (queryInput : String) (choice : Option Nat)
    (nameIn phoneIn emailIn addressIn : String) :
    Store × Except PyErr (Option FileState) :=
  if contacts.isEmpty then (contacts, .ok Option.none)
  else
    let query := pyLower (pyStrip queryInput)
    match searchPairs query contacts with
    | .error e => (contacts, .error e)
    | .ok pairs =>
      let results := pairs.map Prod.snd
      if results.isEmpty then (contacts, .ok Option.none)
      else
        match printResults results with
        | .error e => (contacts, .error e)
        | .ok _ =>
          match select_from results choice with
          | .error e => (contacts, .error e)
          | .ok Option.none => (contacts, .ok Option.none)
          | .ok (some j) =>
            let idx := (pairs.getD j (0, [])).1
            let contact := contacts.getD idx []
            match pyIndex contact (.str "name") with
            | .error e => (contacts, .error e)
            | .ok _ =>
            match pyIndex contact (.str "phone") with
            | .error e => (contacts, .error e)
            | .ok _ =>
            match pyIndex contact (.str "email") with
            | .error e => (contacts, .error e)
            | .ok _ =>
            match pyIndex contact (.str "address") with
            | .error e => (contacts, .error e)
            | .ok _ =>
              let contacts2 := contacts.set idx
                (applyContactEdits contact nameIn phoneIn emailIn addressIn)
              match save_contacts contacts2 with
              | .ok f => (contacts2, .ok (some f))
              | .error e => (contacts2, .error e)

end ContactManager

/-- All-digit character list. -/
def allDigits (cs : List Char) : Bool := cs.all Char.isDigit

/-- Value of a digit list in base 10. -/
def digitsToNat (cs : List Char) : Nat :=
  cs.foldl (fun a c => a * 10 + (c.toNat - 48)) 0

/-- Length of a month in the proleptic Gregorian calendar. -/
def daysInMonth (y m : Nat) : Nat :=
  if m = 2 then (if y % 4 = 0 && (y % 100 != 0 || y % 400 = 0) then 29 else 28)
  else if m = 4 || m = 6 || m = 9 || m = 11 then 30 else 31

/-- Split a character list on dashes. -/
def splitDash : List Char → List (List Char)
  | [] => [[]]
  | c :: cs =>
    let r := splitDash cs
    if c == '-' then [] :: r
    else
      match r with
      | g :: gs => (c :: g) :: gs
      | [] => [[c]]

/-- `datetime.strptime(s, "%Y-%m-%d")` succeeding: exactly four digits
of year, then 1–2 digits of month and of day (the pattern allows the
leading zero to be dropped), nothing left over, and numbers the
calendar accepts (`datetime` needs year ≥ 1, month 1–12, day within
the month). -/
def validDate (s : String) : Bool :=
  match splitDash s.toList with
  | [ys, ms, ds] =>
    allDigits ys && allDigits ms && allDigits ds &&
    ys.length == 4 && decide (1 ≤ ms.length) && decide (ms.length ≤ 2) &&
    decide (1 ≤ ds.length) && decide (ds.length ≤ 2) &&
    (let y := digitsToNat ys
     let m := digitsToNat ms
     let d := digitsToNat ds
     decide (1 ≤ y) && decide (1 ≤ m) && decide (m ≤ 12) &&
     decide (1 ≤ d) && decide (d ≤ daysInMonth y m))
  | _ => false

namespace TodoManager

/-- Outcome of one to-do operation, as reported to the user. -/
inductive TaskOutcome where
  | emptyList
  | invalidInput
  | cancelled
  | notFound
  | applied
  | aborted
deriving DecidableEq, Repr

/-- Convert the entries of a parsed JSON array with `dict(task)`,
stopping at the first error (the comprehension in `load_tasks`). -/
def loadEntries : List PyVal → Except PyErr Store
  | [] => .ok []
  | x :: xs =>
    match dictConv x with
    | .error e => .error e
    | .ok r =>
      match loadEntries xs with
      | .error e => .error e
      | .ok rs => .ok (r :: rs)

/-- `load_tasks`: `[]` when the file is absent, unparseable, or parses
to a non-list; on a parsed list, `[dict(task) for task in data]`,
whose `dict()` errors are NOT caught and so escape. -/
def load_tasks : FileState → Except PyErr Store
  | .absent => .ok []
  | .invalid => .ok []
  | .valid (.list entries) => loadEntries entries
  | .valid _ => .ok []

/-- `save_tasks`: write the store as a JSON array of its record dicts;
`json.dump`'s `TypeError` propagates (only `IOError` is caught). -/
def save_tasks (tasks : Store) : Except PyErr FileState :=
  match dumpLoadVal (.list (tasks.map .dict)) with
  | .ok v => .ok (.valid v)
  | .error e => .error e

/-- `generate_new_id`: 1 for an empty store, else one more than the
largest existing integer `id` (0 standing in when no entry has one;
`isinstance(·, int)` also admits `bool`). -/
def generate_new_id (tasks : Store) : Int :=
  if tasks.isEmpty then 1
  else ContactManager.maxD (ContactManager.existingIds tasks) 0 + 1

/-- `add_task` with the raw description, due-date and notes inputs.
A blank description aborts; an invalid due date is dropped (the task is
still added). Returns the store after the call (the `append` precedes
`save_tasks`) and the save outcome — `Option.none` when validation
failed. -/
def add_task (tasks : Store) (descriptionIn dueIn notesIn : String) :
    Store × Except PyErr (Option FileState) :=
  let description := pyStrip descriptionIn
  if description = "" then (tasks, .ok Option.none)
  else
    let due_date_input := pyStrip dueIn
    let due_date := if due_date_input ≠ "" && validDate due_date_input then due_date_input else ""
    let notes := pyStrip notesIn
    let new_task : Record :=
      [(.str "id", .int (generate_new_id tasks)),
       (.str "description", .str description),
       (.str "completed", .bool false),
       (.str "due_date", .str due_date),
       (.str "notes", .str notes)]
    let tasks2 := tasks ++ [new_task]
    match save_tasks tasks2 with
    | .ok f => (tasks2, .ok (some f))
    | .error e => (tasks2, .error e)

/-- The printing loop of `list_tasks` subscripts `task['id']` and
`task['description']` of every task (its other fields use `.get`),
raising `KeyError` when one is missing; an empty list only prints a
message. -/
def list_tasks : Store → Except PyErr Unit
  | [] => .ok ()
  | t :: rest =>
    match pyIndex t (.str "id") with
    | .error e => .error e
    | .ok _ =>
      match pyIndex t (.str "description") with
      | .error e => .error e
      | .ok _ => list_tasks rest

/-- `find_task_by_id`: the first task whose `id` field `==` the given
id, if any. -/
def find_task_by_id (tasks : Store) (task_id : Int) : Option Record :=
  tasks.find? (fun t => pyEq (pyGet t (.str "id") .none) (.int task_id))

/-- The position of the task `find_task_by_id` returns: Python hands
back the dict object itself, so in-place mutation hits this index. -/
def findTaskIdx : Store → Int → Option Nat
  | [], _ => Option.none
  | t :: rest, task_id =>
    if pyEq (pyGet t (.str "id") .none) (.int task_id) then some 0
    else (findTaskIdx rest task_id).map (· + 1)

/-- The field-edit block of `update_task`: a non-blank description or
notes input replaces the field; a non-blank due date replaces it only
when it parses as a date; blank inputs keep the current values. -/
def applyTaskEdits (task : Record) (descIn dueIn notesIn : String) : Record :=
  let new_description := pyStrip descIn
  let new_due := pyStrip dueIn
  let new_notes := pyStrip notesIn
  let t1 := if new_description ≠ "" then
      dictInsert task (.str "description") (.str new_description) else task
  let t2 := if new_due ≠ "" && validDate new_due then
      dictInsert t1 (.str "due_date") (.str new_due) else t1
  if new_notes ≠ "" then dictInsert t2 (.str "notes") (.str new_notes) else t2

/-- `update_task` with the raw id input and the three field inputs:
list the tasks, parse the id (`0` cancels, a parse failure cancels),
find the task, prompt for each field (the prompts subscript
`description`, `due_date` and `notes`), store each non-blank input —
the due date only when it parses — and save. Returns the store after
the call and the outcome. -/
def update_task (tasks : Store) (idInput descIn dueIn notesIn : String) :
    Store × Except PyErr TaskOutcome :=
  match list_tasks tasks with
  | .error e => (tasks, .error e)
  | .ok _ =>
  if tasks.isEmpty then (tasks, .ok .emptyList)
  else
    match pyParseInt idInput with
    | Option.none => (tasks, .ok .invalidInput)
    | some task_id =>
      if task_id = 0 then (tasks, .ok .cancelled)
      else
        match findTaskIdx tasks task_id with
        | Option.none => (tasks, .ok .notFound)
        | some i =>
          let task := tasks.getD i []
          match pyIndex task (.str "description") with
          | .error e => (tasks, .error e)
          | .ok _ =>
          match pyIndex task (.str "due_date") with
          | .error e => (tasks, .error e)
          | .ok _ =>
          match pyIndex task (.str "notes") with
          | .error e => (tasks, .error e)
          | .ok _ =>
            let tasks2 := tasks.set i (applyTaskEdits task descIn dueIn notesIn)
            match save_tasks tasks2 with
            | .ok _ => (tasks2, .ok .applied)
            | .error e => (tasks2, .error e)

/-- `toggle_completion` with the raw id input: list, parse (`0`
cancels), find, then `task['completed'] = not task.get('completed',
False)` (Python `not` of the value's truthiness) and save. Returns the
store after the call and the outcome. -/
def toggle_completion (tasks : Store) (idInput : String) :
    Store × Except PyErr TaskOutcome :=
  match list_tasks tasks with
  | .error e => (tasks, .error e)
  | .ok _ =>
  if tasks.isEmpty then (tasks, .ok .emptyList)
  else
    match pyParseInt idInput with
    | Option.none => (tasks, .ok .invalidInput)
    | some task_id =>
      if task_id = 0 then (tasks, .ok .cancelled)
      else
        match findTaskIdx tasks task_id with
        | Option.none => (tasks, .ok .notFound)
        | some i =>
          let task := tasks.getD i []
          let newVal := !(pyTruthy (pyGet task (.str "completed") (.bool false)))
          let task2 := dictInsert task (.str "completed") (.bool newVal)
          let tasks2 := tasks.set i task2
          match save_tasks tasks2 with
          | .ok _ => (tasks2, .ok .applied)
          | .error e => (tasks2, .error e)

/-- Python `list.remove(x)`: drop the first element `==`-equal to `x`
(always present here, since `x` came from the list). -/
def removeFirstEq : Store → Record → Store
  | [], _ => []
  | t :: rest, x => if pyEq (.dict t) (.dict x) then rest else t :: removeFirstEq rest x

/-- `delete_task` with the raw id input and the confirmation answer:
list, parse (`0` cancels), find (else "Task not found."), confirm (the
prompt subscripts `task['description']`; only `y`/`yes`, lowercased,
deletes), remove and save. Returns the store after the call and the
outcome. -/
def delete_task (tasks : Store) (idInput confirmIn : String) :
    Store × Except PyErr TaskOutcome :=
  match list_tasks tasks with
  | .error e => (tasks, .error e)
  | .ok _ =>
  if tasks.isEmpty then (tasks, .ok .emptyList)
  else
    match pyParseInt idInput with
    | Option.none => (tasks, .ok .invalidInput)
    | some task_id =>
      if task_id = 0 then (tasks, .ok .cancelled)
      else
        match find_task_by_id tasks task_id with
        | Option.none => (tasks, .ok .notFound)
        | some task =>
          match pyIndex task (.str "description") with
          | .error e => (tasks, .error e)
          | .ok _ =>
            let confirm := pyLower (pyStrip confirmIn)
            if confirm = "y" || confirm = "yes" then
              let tasks2 := removeFirstEq tasks task
              match save_tasks tasks2 with
              | .ok _ => (tasks2, .ok .applied)
              | .error e => (tasks2, .error e)
            else (tasks, .ok .aborted)

end TodoManager

namespace PasswordGenerator

/-- `string.ascii_lowercase`. -/
def ascii_lowercase : String := "abcdefghijklmnopqrstuvwxyz"

/-- `string.ascii_uppercase`. -/
def ascii_uppercase : String := "ABCDEFGHIJKLMNOPQRSTUVWXYZ"

/-- `string.digits`. -/
def ascii_digits : String := "0123456789"

/-- `string.punctuation`: the printable ASCII characters (codes 33–126)
that are not alphanumeric. -/
def ascii_punctuation : String :=
  String.mk (((List.range 127).drop 33).filterMap (fun n =>
    let c := Char.ofNat n
    if c.isAlphanum then Option.none else some c))

/-- `generate_password`.  `random.SystemRandom().choice(characters)` is
abstracted by the oracle `pick`: position `i` of the password gets the
pool character at index `pick i` reduced mod the pool size, so any pool
character can appear at any position, which is all `choice` of a
nonempty sequence guarantees. -/
def generate_password (length : Int)
    (use_uppercase use_lowercase use_digits use_symbols : Bool)
    (pick : Nat → Nat) : Except PyErr String :=
  if length ≤ 0 then .error .valueError
  else
    let characters :=
      (if use_lowercase then ascii_lowercase else "") ++
      (if use_uppercase then ascii_uppercase else "") ++
      (if use_digits then ascii_digits else "") ++
      (if use_symbols then ascii_punctuation else "")
    if characters = "" then .error .valueError
    else
      .ok (String.mk ((List.range length.toNat).map
        (fun i => characters.toList.getD (pick i % characters.toList.length) ' ')))

end PasswordGenerator

/-- Scalar (non-container) values: what the records of these programs
hold. -/
def scalarVal : PyVal → Bool
  | .none => true
  | .bool _ => true
  | .int _ => true
  | .str _ => true
  | _ => false

/-- Is the value a string (a well-formed dict key for these records)? -/
def strKeyB : PyVal → Bool
  | .str _ => true
  | _ => false

/-- The string keys of a record. -/
def recKeys (r : Record) : List String :=
  r.filterMap (fun kv => match kv.1 with | .str s => some s | _ => Option.none)

/-- A record as the data model describes one: string field names,
pairwise distinct (as in a real Python dict), scalar values. -/
def flatRecord (r : Record) : Prop :=
  (∀ kv ∈ r, strKeyB kv.1 = true ∧ scalarVal kv.2 = true) ∧ (recKeys r).Nodup

instance flatRecordDec (r : Record) : Decidable (flatRecord r) := by
  unfold flatRecord; infer_instance

/-- A store of flat records. -/
def flatStore (s : Store) : Prop := ∀ r ∈ s, flatRecord r

instance flatStoreDec (s : Store) : Decidable (flatStore s) := by
  unfold flatStore; infer_instance

/-- Spec-side view of a record field: the string it holds (fields are
strings in the data model; anything else reads as ""). -/
def fieldStr : PyVal → String
  | .str s => s
  | _ => ""

/-- Modelled from the spec: the query is a case-insensitive substring
of the record's name field. -/
def specNameHit (q : String) (c : Record) : Bool :=
  pyContains (pyLower (fieldStr (pyGet c (.str "name") (.str "")))) (pyLower q)

/-- Modelled from the spec: the query is a case-insensitive substring
of the record's phone field. -/
def specPhoneHit (q : String) (c : Record) : Bool :=
  pyContains (pyLower (fieldStr (pyGet c (.str "phone") (.str "")))) (pyLower q)

/-- Modelled from the spec: "case-insensitive substring match against
one or more designated fields" — name or phone for contacts. -/
def specSearchHit (q : String) (c : Record) : Bool :=
  specNameHit q c || specPhoneHit q c

/-- The store after a sequence of `add_contact` calls, one per tuple of
user inputs (name, phone, email, address). -/
def addChain (contacts : Store) : List (String × String × String × String) → Store
  | [] => contacts
  | i :: rest => addChain (ContactManager.add_contact contacts i.1 i.2.1 i.2.2.1 i.2.2.2).1 rest

/-- The identifiers generated along such a sequence, in creation
order. -/
def assignedIds (contacts : Store) : List (String × String × String × String) → List Int
  | [] => []
  | i :: rest => ContactManager.generate_new_id contacts ::
      assignedIds (ContactManager.add_contact contacts i.1 i.2.1 i.2.2.1 i.2.2.2).1 rest

/-- The character pool `generate_password` builds from the enabled
sets, in source order. -/
def passPool (uu ul ud us : Bool) : String :=
  (if ul then PasswordGenerator.ascii_lowercase else "") ++
  (if uu then PasswordGenerator.ascii_uppercase else "") ++
  (if ud then PasswordGenerator.ascii_digits else "") ++
  (if us then PasswordGenerator.ascii_punctuation else "")

@[simp] theorem pyEq_str_str (a b : String) : pyEq (.str a) (.str b) = (a == b) := by
  simp [pyEq]

@[simp] theorem pyEq_int_int (a b : Int) : pyEq (.int a) (.int b) = (a == b) := by
  simp [pyEq]

@[simp] theorem pyEq_str_int (a : String) (b : Int) : pyEq (.str a) (.int b) = false := by
  simp [pyEq]

@[simp] theorem pyEq_int_str (a : Int) (b : String) : pyEq (.int a) (.str b) = false := by
  simp [pyEq]

@[simp] theorem pyEq_none_int (b : Int) : pyEq .none (.int b) = false := by
  simp [pyEq]

@[simp] theorem pyEq_bool_int (a : Bool) (n : Int) :
    pyEq (.bool a) (.int n) = ((if a then (1 : Int) else 0) == n) := by
  simp [pyEq]

@[simp] theorem pyEq_int_bool (n : Int) (a : Bool) :
    pyEq (.int n) (.bool a) = (n == (if a then (1 : Int) else 0)) := by
  simp [pyEq]

@[simp] theorem pyEq_list_int (xs : List PyVal) (n : Int) :
    pyEq (.list xs) (.int n) = false := by
  simp [pyEq]

@[simp] theorem pyEq_dict_int (kvs : List (PyVal × PyVal)) (n : Int) :
    pyEq (.dict kvs) (.int n) = false := by
  simp [pyEq]

@[simp] theorem pyEq_none_none : pyEq .none .none = true := by
  simp [pyEq]

@[simp] theorem pyEq_bool_bool (a b : Bool) : pyEq (.bool a) (.bool b) = (a == b) := by
  simp [pyEq]

@[simp] theorem pyEq_int_none (a : Int) : pyEq (.int a) .none = false := by
  simp [pyEq]

@[simp] theorem pyEq_int_list (a : Int) (ys : List PyVal) : pyEq (.int a) (.list ys) = false := by
  simp [pyEq]

@[simp] theorem pyEq_int_dict (a : Int) (ys : List (PyVal × PyVal)) :
    pyEq (.int a) (.dict ys) = false := by
  simp [pyEq]

@[simp] theorem pyEq_str_none (a : String) : pyEq (.str a) .none = false := by
  simp [pyEq]

@[simp] theorem pyEq_str_bool (a : String) (b : Bool) : pyEq (.str a) (.bool b) = false := by
  simp [pyEq]

@[simp] theorem pyEq_bool_str (a : Bool) (b : String) : pyEq (.bool a) (.str b) = false := by
  simp [pyEq]

@[simp] theorem pyEq_none_str (b : String) : pyEq .none (.str b) = false := by
  simp [pyEq]

@[simp] theorem pyEq_str_list (a : String) (ys : List PyVal) : pyEq (.str a) (.list ys) = false := by
  simp [pyEq]

@[simp] theorem pyEq_str_dict (a : String) (ys : List (PyVal × PyVal)) :
    pyEq (.str a) (.dict ys) = false := by
  simp [pyEq]

@[simp] theorem pyEq_dict_dict (xs ys : List (PyVal × PyVal)) :
    pyEq (.dict xs) (.dict ys) = (xs.length == ys.length && pyEqEntries xs ys) := by
  simp [pyEq]

@[simp] theorem pyEq_list_list (xs ys : List PyVal) :
    pyEq (.list xs) (.list ys) = pyEqList xs ys := by
  simp [pyEq]

@[simp] theorem pyEqEntries_nil (ys : List (PyVal × PyVal)) : pyEqEntries [] ys = true := by
  simp [pyEqEntries]

@[simp] theorem pyEqEntries_cons (k v : PyVal) (rest ys : List (PyVal × PyVal)) :
    pyEqEntries ((k, v) :: rest) ys = (pyLookupEq ys k v && pyEqEntries rest ys) := by
  simp [pyEqEntries]

@[simp] theorem pyLookupEq_nil (k v : PyVal) : pyLookupEq [] k v = false := by
  simp [pyLookupEq]

@[simp] theorem pyLookupEq_cons (k2 v2 : PyVal) (rest : List (PyVal × PyVal)) (k v : PyVal) :
    pyLookupEq ((k2, v2) :: rest) k v =
      (if pyEq k2 k then pyEq v2 v else pyLookupEq rest k v) := by
  simp [pyLookupEq]

@[simp] theorem pyEqList_nil_nil : pyEqList [] [] = true := by
  simp [pyEqList]

@[simp] theorem pyEqList_cons (x : PyVal) (xs : List PyVal) (y : PyVal) (ys : List PyVal) :
    pyEqList (x :: xs) (y :: ys) = (pyEq x y && pyEqList xs ys) := by
  simp [pyEqList]


/-- `find_task_by_id` returns exactly the record sitting at the found
position. -/
theorem find_task_by_id_eq_idx (tasks : Store) (task_id : Int) :
    TodoManager.find_task_by_id tasks task_id = (TodoManager.findTaskIdx tasks task_id).map (fun i => tasks.getD i []) := by
  induction tasks with
  | nil => rfl
  | cons t rest ih =>
    unfold TodoManager.find_task_by_id TodoManager.findTaskIdx
    rw [List.find?_cons]
    cases h : pyEq (pyGet t (.str "id") .none) (.int task_id) with
    | true => simp [h]
    | false =>
      simp only [h, Bool.false_eq_true, if_false, ite_false]
      unfold TodoManager.find_task_by_id at ih
      rw [ih, Option.map_map]
      cases hidx : TodoManager.findTaskIdx rest task_id <;> simp


section IdLemmas

theorem foldl_max_le (xs : List Int) (a b : Int) (h : a ≤ b) : a ≤ xs.foldl max b := by
  induction xs generalizing b with
  | nil => exact h
  | cons x xs ih => exact ih (max b x) (le_trans h (le_max_left b x))

theorem mem_foldl_max (xs : List Int) (a : Int) : ∀ b, a ∈ xs → a ≤ xs.foldl max b := by
  induction xs with
  | nil => intro b h; cases h
  | cons x xs ih =>
    intro b h
    rcases List.mem_cons.1 h with rfl | h2
    · exact foldl_max_le xs a (max b a) (le_max_right b a)
    · exact ih (max b x) h2

theorem foldl_max_mem (xs : List Int) : ∀ b, xs.foldl max b = b ∨ xs.foldl max b ∈ xs := by
  induction xs with
  | nil => intro b; exact Or.inl rfl
  | cons x xs ih =>
    intro b
    rw [List.foldl_cons]
    rcases ih (max b x) with h | h
    · rw [h]
      rcases max_cases b x with ⟨h2, _⟩ | ⟨h2, _⟩
      · exact Or.inl h2
      · exact Or.inr (by rw [h2]; exact List.mem_cons_self x xs)
    · exact Or.inr (List.mem_cons_of_mem x h)

theorem maxD_mem_le (xs : List Int) (d a : Int) (h : a ∈ xs) : a ≤ ContactManager.maxD xs d := by
  match xs, h with
  | x :: rest, h =>
    rcases List.mem_cons.1 h with rfl | h2
    · exact foldl_max_le rest a a le_rfl
    · exact mem_foldl_max rest a x h2

theorem maxD_zero_or_mem (xs : List Int) : ContactManager.maxD xs 0 = 0 ∨ ContactManager.maxD xs 0 ∈ xs := by
  match xs with
  | [] => exact Or.inl rfl
  | x :: rest =>
    show rest.foldl max x = 0 ∨ rest.foldl max x ∈ x :: rest
    rcases foldl_max_mem rest x with h | h
    · exact Or.inr (by rw [h]; exact List.mem_cons_self x rest)
    · exact Or.inr (List.mem_cons_of_mem x h)

theorem mem_existingIds (contacts : Store) (c : Record) (n : Int)
    (hc : c ∈ contacts) (h : ContactManager.intId (pyGet c (.str "id") .none) = some n) :
    n ∈ ContactManager.existingIds contacts :=
  List.mem_filterMap.2 ⟨c, hc, h⟩

theorem lt_generate_new_id (contacts : Store) (c : Record) (n : Int)
    (hc : c ∈ contacts) (h : ContactManager.intId (pyGet c (.str "id") .none) = some n) :
    n < ContactManager.generate_new_id contacts := by
  have hne : contacts.isEmpty = false := by
    cases contacts with
    | nil => cases hc
    | cons a l => rfl
  unfold ContactManager.generate_new_id
  rw [hne]
  simp only [Bool.false_eq_true, if_false]
  have := maxD_mem_le (ContactManager.existingIds contacts) 0 n (mem_existingIds contacts c n hc h)
  omega

theorem generate_new_id_fresh (contacts : Store) (c : Record) (hc : c ∈ contacts) :
    pyEq (.int (ContactManager.generate_new_id contacts)) (pyGet c (.str "id") .none) = false := by
  cases hv : pyGet c (.str "id") .none with
  | none => simp
  | bool b =>
    have h := lt_generate_new_id contacts c (if b then 1 else 0) hc (by rw [hv]; rfl)
    simp only [pyEq_int_bool]
    cases b <;> simp_all <;> omega
  | int n =>
    have h := lt_generate_new_id contacts c n hc (by rw [hv]; rfl)
    simp only [pyEq_int_int]
    exact beq_eq_false_iff_ne.2 (by omega)
  | str s => simp
  | list xs => simp
  | dict kvs => simp

theorem todo_generate_new_id_eq (tasks : Store) :
    TodoManager.generate_new_id tasks = ContactManager.generate_new_id tasks := rfl

end IdLemmas

section OpLemmas

/-- A successful `add_task` appends exactly one record, carrying the
freshly generated id, regardless of how the save turns out. -/
theorem add_task_fst (tasks : Store) (d due notes : String) (h : ¬ pyStrip d = "") :
    (TodoManager.add_task tasks d due notes).1 =
      tasks ++ [[(.str "id", .int (TodoManager.generate_new_id tasks)),
                 (.str "description", .str (pyStrip d)),
                 (.str "completed", .bool false),
                 (.str "due_date", .str (if pyStrip due ≠ "" && validDate (pyStrip due)
                    then pyStrip due else "")),
                 (.str "notes", .str (pyStrip notes))]] := by
  unfold TodoManager.add_task
  simp only [h, if_neg, if_false, ite_false]
  cases hs : TodoManager.save_tasks (tasks ++ [[(.str "id", .int (TodoManager.generate_new_id tasks)),
      (.str "description", .str (pyStrip d)),
      (.str "completed", .bool false),
      (.str "due_date", .str (if pyStrip due ≠ "" && validDate (pyStrip due)
        then pyStrip due else "")),
      (.str "notes", .str (pyStrip notes))]]) <;> simp [hs]

/-- A confirmed `delete_task` of a found task removes that task
(the first `==`-equal element), regardless of how the save turns out. -/
theorem delete_task_fst_found (tasks : Store) (idIn confirmIn : String) (n : Int) (t : Record)
    (hl : TodoManager.list_tasks tasks = .ok ())
    (hne : tasks.isEmpty = false)
    (hp : pyParseInt idIn = some n) (h0 : ¬ n = 0)
    (hf : TodoManager.find_task_by_id tasks n = some t)
    (hd : (pyIndex t (.str "description")).isOk = true)
    (hc : pyLower (pyStrip confirmIn) = "y") :
    (TodoManager.delete_task tasks idIn confirmIn).1 = TodoManager.removeFirstEq tasks t := by
  unfold TodoManager.delete_task
  cases hdx : pyIndex t (.str "description") with
  | error e => rw [hdx] at hd; simp [Except.isOk, Except.toBool] at hd
  | ok v =>
    cases hs : TodoManager.save_tasks (TodoManager.removeFirstEq tasks t) <;>
      simp [hl, hne, hp, hf, hc, h0, hdx, hs]

end OpLemmas

/-- C1 (amended): for every store, the freshly generated identifier is
1 on an empty store; it is strictly greater than every integer
identifier present (so distinct, under Python `==`, from the identifier
of every record in the store); one less than it is 0 or an identifier
present in the store (so it is exactly max + 1); and the to-do manager
generates ids the same way.  (The original claim's further "never
reassigned after deletion" part is false: see the counterexample.) -/
theorem generate_new_id_fresh_spec (contacts : Store) :
    (contacts = [] → ContactManager.generate_new_id contacts = 1) ∧
    (∀ c ∈ contacts, ∀ n : Int, ContactManager.intId (pyGet c (.str "id") .none) = some n →
      n < ContactManager.generate_new_id contacts) ∧
    (¬ contacts = [] →
      ContactManager.generate_new_id contacts - 1 = 0 ∨
      ∃ c ∈ contacts, ContactManager.intId (pyGet c (.str "id") .none) =
        some (ContactManager.generate_new_id contacts - 1)) ∧
    (∀ c ∈ contacts, pyEq (.int (ContactManager.generate_new_id contacts))
      (pyGet c (.str "id") .none) = false) ∧
    TodoManager.generate_new_id contacts = ContactManager.generate_new_id contacts := by
  refine ⟨?_, ?_, ?_, ?_, rfl⟩
  · intro h; subst h; rfl
  · intro c hc n h; exact lt_generate_new_id contacts c n hc h
  · intro hne
    have hE : contacts.isEmpty = false := by
      cases contacts with
      | nil => exact absurd rfl hne
      | cons a l => rfl
    unfold ContactManager.generate_new_id
    rw [hE]
    simp only [Bool.false_eq_true, if_false]
    have h2 : ContactManager.maxD (ContactManager.existingIds contacts) 0 + 1 - 1 =
        ContactManager.maxD (ContactManager.existingIds contacts) 0 := by omega
    rw [h2]
    rcases maxD_zero_or_mem (ContactManager.existingIds contacts) with h | h
    · exact Or.inl h
    · rcases List.mem_filterMap.1 h with ⟨c, hc, hcc⟩
      exact Or.inr ⟨c, hc, hcc⟩
  · intro c hc; exact generate_new_id_fresh contacts c hc

/-- Witness for `generate_new_id_fresh_spec` at a concrete store. -/
theorem generate_new_id_fresh_spec_witness :
    (3 : Int) < ContactManager.generate_new_id [[(.str "id", .int 3)]] :=
  (generate_new_id_fresh_spec [[(.str "id", .int 3)]]).2.1
    [(.str "id", .int 3)] (List.mem_singleton.2 rfl) 3
    (by simp [pyGet, List.find?, ContactManager.intId])

/-- C1 counterexample (the "never reused after deletion" part): create
two tasks, so the second gets id 2; delete task 2 (confirmed); no
record with id 2 remains, yet the next creation assigns id 2 again. -/
theorem id_reused_after_delete :
    (TodoManager.add_task [] "a" "" "").1 =
      [[(.str "id", .int 1), (.str "description", .str "a"), (.str "completed", .bool false),
        (.str "due_date", .str ""), (.str "notes", .str "")]] ∧
    (TodoManager.add_task
        [[(.str "id", .int 1), (.str "description", .str "a"), (.str "completed", .bool false),
          (.str "due_date", .str ""), (.str "notes", .str "")]] "b" "" "").1 =
      [[(.str "id", .int 1), (.str "description", .str "a"), (.str "completed", .bool false),
        (.str "due_date", .str ""), (.str "notes", .str "")],
       [(.str "id", .int 2), (.str "description", .str "b"), (.str "completed", .bool false),
        (.str "due_date", .str ""), (.str "notes", .str "")]] ∧
    (TodoManager.delete_task
        [[(.str "id", .int 1), (.str "description", .str "a"), (.str "completed", .bool false),
          (.str "due_date", .str ""), (.str "notes", .str "")],
         [(.str "id", .int 2), (.str "description", .str "b"), (.str "completed", .bool false),
          (.str "due_date", .str ""), (.str "notes", .str "")]] "2" "y").1 =
      [[(.str "id", .int 1), (.str "description", .str "a"), (.str "completed", .bool false),
        (.str "due_date", .str ""), (.str "notes", .str "")]] ∧
    TodoManager.find_task_by_id
      [[(.str "id", .int 1), (.str "description", .str "a"), (.str "completed", .bool false),
        (.str "due_date", .str ""), (.str "notes", .str "")]] 2 = Option.none ∧
    (TodoManager.add_task
        [[(.str "id", .int 1), (.str "description", .str "a"), (.str "completed", .bool false),
          (.str "due_date", .str ""), (.str "notes", .str "")]] "c" "" "").1 =
      [[(.str "id", .int 1), (.str "description", .str "a"), (.str "completed", .bool false),
        (.str "due_date", .str ""), (.str "notes", .str "")],
       [(.str "id", .int 2), (.str "description", .str "c"), (.str "completed", .bool false),
        (.str "due_date", .str ""), (.str "notes", .str "")]] := by
  have hg : TodoManager.generate_new_id
      [[(.str "id", .int 1), (.str "description", .str "a"), (.str "completed", .bool false),
        (.str "due_date", .str ""), (.str "notes", .str "")]] = 2 := by
    simp [TodoManager.generate_new_id, ContactManager.generate_new_id,
      ContactManager.existingIds, ContactManager.intId, ContactManager.maxD,
      pyGet, List.find?, List.filterMap]
  have e3 := delete_task_fst_found
    [[(.str "id", .int 1), (.str "description", .str "a"), (.str "completed", .bool false),
      (.str "due_date", .str ""), (.str "notes", .str "")],
     [(.str "id", .int 2), (.str "description", .str "b"), (.str "completed", .bool false),
      (.str "due_date", .str ""), (.str "notes", .str "")]] "2" "y" 2
    [(.str "id", .int 2), (.str "description", .str "b"), (.str "completed", .bool false),
     (.str "due_date", .str ""), (.str "notes", .str "")]
    (by simp [TodoManager.list_tasks, pyIndex, List.find?])
    rfl (by decide) (by decide)
    (by simp [TodoManager.find_task_by_id, pyGet, List.find?])
    (by simp [pyIndex, List.find?, Except.isOk, Except.toBool])
    (by decide)
  refine ⟨?_, ?_, ?_, ?_, ?_⟩
  · rw [add_task_fst [] "a" "" "" (by decide)]; rfl
  · rw [add_task_fst _ "b" "" "" (by decide), hg]; rfl
  · rw [e3]
    simp [TodoManager.removeFirstEq]
  · simp [TodoManager.find_task_by_id, pyGet, List.find?]
  · rw [add_task_fst _ "c" "" "" (by decide), hg]; rfl

/-- C2 (code bug): a persisted file holding the valid JSON list `[1]`
is malformed — it is not a list of records — yet loading does not fall
back to the empty store: `dict(1)` inside the comprehension raises
`TypeError`, which the `except (json.JSONDecodeError, IOError)` clause
does not catch, contradicting the loaders' own docstrings ("Returns an
empty list if the file does not exist or is invalid") and the spec.
The absent / not-JSON / non-list fallbacks do work, as also shown. -/
theorem load_raises_on_nondict_entry :
    ContactManager.load_contacts (.valid (.list [.int 1])) = .error .typeError ∧
    TodoManager.load_tasks (.valid (.list [.int 1])) = .error .typeError ∧
    ContactManager.load_contacts .absent = .ok [] ∧
    ContactManager.load_contacts .invalid = .ok [] ∧
    ContactManager.load_contacts (.valid (.dict [])) = .ok [] ∧
    TodoManager.load_tasks .absent = .ok [] ∧
    TodoManager.load_tasks .invalid = .ok [] ∧
    TodoManager.load_tasks (.valid (.int 7)) = .ok [] :=
  ⟨rfl, rfl, rfl, rfl, rfl, rfl, rfl, rfl⟩

section RoundTrip

theorem dumpLoadVal_scalar (v : PyVal) (h : scalarVal v = true) : dumpLoadVal v = .ok v := by
  cases v <;> simp [dumpLoadVal] <;> cases h

theorem dictInsert_of_not_mem (c : Record) (k v : PyVal)
    (h : ∀ kv ∈ c, pyEq kv.1 k = false) : dictInsert c k v = c ++ [(k, v)] := by
  induction c with
  | nil => rfl
  | cons kv rest ih =>
    unfold dictInsert
    rw [h kv (List.mem_cons_self kv rest)]
    simp only [Bool.false_eq_true, if_false, List.cons_append, List.cons.injEq, true_and]
    exact ih (fun kv2 h2 => h kv2 (List.mem_cons_of_mem kv h2))

theorem pyEq_of_str_mem_keys (kv : PyVal × PyVal) (r : Record) (s : String)
    (hkv : kv ∈ r) (hk : strKeyB kv.1 = true) (hs : ¬ s ∈ recKeys r) :
    pyEq kv.1 (.str s) = false := by
  cases hkey : kv.1 with
  | str s2 =>
    have : s2 ∈ recKeys r := by
      unfold recKeys
      exact List.mem_filterMap.2 ⟨kv, hkv, by rw [hkey]⟩
    rw [pyEq_str_str]
    exact beq_eq_false_iff_ne.2 (fun he => hs (he ▸ this))
  | _ => rw [hkey] at hk <;> cases hk

theorem dictFromPairs_flat_aux (ps : List (PyVal × PyVal)) :
    ∀ d : Record,
      (∀ kv ∈ d, strKeyB kv.1 = true) → (∀ kv ∈ ps, strKeyB kv.1 = true) →
      (recKeys d ++ recKeys ps).Nodup →
      ps.foldl (fun acc kv => dictInsert acc kv.1 kv.2) d = d ++ ps := by
  induction ps with
  | nil => intro d _ _ _; simp
  | cons kv rest ih =>
    intro d hd hps hnod
    have hkvs : strKeyB kv.1 = true := hps kv (List.mem_cons_self kv rest)
    obtain ⟨s, hs⟩ : ∃ s, kv.1 = .str s := by
      cases h : kv.1 <;> rw [h] at hkvs <;> first | exact ⟨_, rfl⟩ | cases hkvs
    have hrk : recKeys (kv :: rest) = s :: recKeys rest := by
      unfold recKeys; rw [List.filterMap_cons, hs]
    rw [hrk] at hnod
    have hsd : ¬ s ∈ recKeys d := by
      intro hmem
      rcases List.nodup_append.1 hnod with ⟨_, _, hdisj⟩
      exact hdisj hmem (List.mem_cons_self s (recKeys rest))
    have hins : dictInsert d kv.1 kv.2 = d ++ [kv] := by
      rw [hs, dictInsert_of_not_mem d (.str s) kv.2
        (fun kv2 h2 => pyEq_of_str_mem_keys kv2 d s h2 (hd kv2 h2) hsd), ← hs]
    have h1 : ∀ kv2 ∈ d ++ [kv], strKeyB kv2.1 = true := by
      intro kv2 h2
      rcases List.mem_append.1 h2 with h3 | h3
      · exact hd kv2 h3
      · rw [List.mem_singleton.1 h3]; exact hkvs
    have h2 : ∀ kv2 ∈ rest, strKeyB kv2.1 = true :=
      fun kv2 h3 => hps kv2 (List.mem_cons_of_mem kv h3)
    have hk2 : recKeys (d ++ [kv]) = recKeys d ++ [s] := by
      unfold recKeys
      rw [List.filterMap_append]
      congr 1
      simp [hs]
    have h3 : (recKeys (d ++ [kv]) ++ recKeys rest).Nodup := by
      rw [hk2, List.append_assoc]
      exact hnod
    calc (kv :: rest).foldl (fun acc kv => dictInsert acc kv.1 kv.2) d
        = rest.foldl (fun acc kv => dictInsert acc kv.1 kv.2) (dictInsert d kv.1 kv.2) := rfl
      _ = rest.foldl (fun acc kv => dictInsert acc kv.1 kv.2) (d ++ [kv]) := by rw [hins]
      _ = (d ++ [kv]) ++ rest := ih (d ++ [kv]) h1 h2 h3
      _ = d ++ kv :: rest := by simp

/-- On a record with distinct string keys, rebuilding the dict from its
pairs is the identity (no coerced-key collisions). -/
theorem dictFromPairs_flat (r : Record)
    (hk : ∀ kv ∈ r, strKeyB kv.1 = true) (hnd : (recKeys r).Nodup) :
    dictFromPairs r = r := by
  have := dictFromPairs_flat_aux r [] (by intro kv h; cases h) hk (by simpa using hnd)
  simpa [dictFromPairs] using this

/-- Dump-then-load is the identity on each flat record. -/
theorem dumpLoadEntries_flat (r : Record)
    (hkv : ∀ kv ∈ r, strKeyB kv.1 = true ∧ scalarVal kv.2 = true) :
    dumpLoadEntries r = .ok r := by
  induction r with
  | nil => simp [dumpLoadEntries]
  | cons kv rest ih =>
    obtain ⟨s, hs⟩ : ∃ s, kv.1 = .str s := by
      have := (hkv kv (List.mem_cons_self kv rest)).1
      cases h2 : kv.1 <;> rw [h2] at this <;> first | exact ⟨_, rfl⟩ | cases this
    have hv := (hkv kv (List.mem_cons_self kv rest)).2
    have ihr : dumpLoadEntries rest = .ok rest :=
      ih (fun kv2 h2 => hkv kv2 (List.mem_cons_of_mem kv h2))
    have : dumpLoadEntries (kv :: rest) =
        match dumpKey kv.1, dumpLoadVal kv.2, dumpLoadEntries rest with
        | .ok k2, .ok v2, .ok ps => .ok ((k2, v2) :: ps)
        | .error e, _, _ => .error e
        | _, .error e, _ => .error e
        | _, _, .error e => .error e := by
      conv_lhs => rw [show kv = (kv.1, kv.2) from rfl]
      rw [dumpLoadEntries]
    rw [this, hs, ihr, dumpLoadVal_scalar kv.2 hv]
    simp [dumpKey, ← hs]

/-- Dump-then-load is the identity on a store of flat records. -/
theorem dumpLoadList_flat (s : Store) (h : flatStore s) :
    dumpLoadList (s.map .dict) = .ok (s.map .dict) := by
  induction s with
  | nil => simp [dumpLoadList]
  | cons r rest ih =>
    have hr := h r (List.mem_cons_self r rest)
    have ihr := ih (fun r2 h2 => h r2 (List.mem_cons_of_mem r h2))
    rw [List.map_cons, dumpLoadList, dumpLoadVal]
    rw [dumpLoadEntries_flat r hr.1]
    simp only []
    rw [dictFromPairs_flat r (fun kv h2 => (hr.1 kv h2).1) hr.2, ihr]

theorem cm_loadEntries_map_dict (s : Store) :
    ContactManager.loadEntries (s.map .dict) = .ok s := by
  induction s with
  | nil => rfl
  | cons r rest ih => simp [ContactManager.loadEntries, dictConv, ih]

theorem tm_loadEntries_map_dict (s : Store) :
    TodoManager.loadEntries (s.map .dict) = .ok s := by
  induction s with
  | nil => rfl
  | cons r rest ih => simp [TodoManager.loadEntries, dictConv, ih]

/-- C3: saving a store of well-formed records (string field names,
distinct within each record, scalar values — what both applications
ever store) and loading the resulting file reproduces exactly the same
record list, in both applications. -/
theorem save_load_round_trip (s : Store) (h : flatStore s) :
    ∃ f : FileState,
      ContactManager.save_contacts s = .ok f ∧ ContactManager.load_contacts f = .ok s ∧
      TodoManager.save_tasks s = .ok f ∧ TodoManager.load_tasks f = .ok s := by
  refine ⟨.valid (.list (s.map .dict)), ?_, ?_, ?_, ?_⟩
  · unfold ContactManager.save_contacts
    rw [dumpLoadVal, dumpLoadList_flat s h]
  · show ContactManager.loadEntries (s.map .dict) = .ok s
    exact cm_loadEntries_map_dict s
  · unfold TodoManager.save_tasks
    rw [dumpLoadVal, dumpLoadList_flat s h]
  · show TodoManager.loadEntries (s.map .dict) = .ok s
    exact tm_loadEntries_map_dict s

/-- Witness for `save_load_round_trip` at a concrete two-record store. -/
theorem save_load_round_trip_witness :
    flatStore [[(.str "id", .int 1), (.str "name", .str "Ann"), (.str "phone", .str "123")],
               [(.str "id", .int 2), (.str "description", .str "buy milk"),
                (.str "completed", .bool false)]] ∧
    ∃ f : FileState,
      ContactManager.save_contacts
          [[(.str "id", .int 1), (.str "name", .str "Ann"), (.str "phone", .str "123")],
           [(.str "id", .int 2), (.str "description", .str "buy milk"),
            (.str "completed", .bool false)]] = .ok f ∧
      ContactManager.load_contacts f = .ok
          [[(.str "id", .int 1), (.str "name", .str "Ann"), (.str "phone", .str "123")],
           [(.str "id", .int 2), (.str "description", .str "buy milk"),
            (.str "completed", .bool false)]] ∧
      TodoManager.save_tasks
          [[(.str "id", .int 1), (.str "name", .str "Ann"), (.str "phone", .str "123")],
           [(.str "id", .int 2), (.str "description", .str "buy milk"),
            (.str "completed", .bool false)]] = .ok f ∧
      TodoManager.load_tasks f = .ok
          [[(.str "id", .int 1), (.str "name", .str "Ann"), (.str "phone", .str "123")],
           [(.str "id", .int 2), (.str "description", .str "buy milk"),
            (.str "completed", .bool false)]] :=
  ⟨by decide, save_load_round_trip _ (by decide)⟩

end RoundTrip

section Search

theorem startsWithChars_iff (hay needle : List Char) :
    startsWithChars hay needle = true ↔ needle <+: hay := by
  induction needle generalizing hay with
  | nil => simp [startsWithChars, List.nil_prefix]
  | cons d ds ih =>
    cases hay with
    | nil =>
      simp only [startsWithChars, List.prefix_nil]
      constructor
      · intro h; cases h
      · intro h; cases h
    | cons c cs =>
      simp only [startsWithChars, Bool.and_eq_true, beq_iff_eq, List.cons_prefix_cons, ih]
      exact ⟨fun ⟨a, b⟩ => ⟨a.symm, b⟩, fun ⟨a, b⟩ => ⟨a.symm, b⟩⟩

theorem containsChars_iff (hay needle : List Char) :
    containsChars hay needle = true ↔ needle <:+: hay := by
  induction hay with
  | nil =>
    simp only [containsChars, List.infix_nil, List.isEmpty_iff]
  | cons c cs ih =>
    simp only [containsChars, Bool.or_eq_true, startsWithChars_iff, ih, List.infix_cons_iff]

/-- Python `needle in hay` on strings is exactly "needle is a
contiguous substring of hay". -/
theorem pyContains_iff_infix (hay needle : String) :
    pyContains hay needle = true ↔ needle.toList <:+: hay.toList :=
  containsChars_iff hay.toList needle.toList

theorem pyGet_of_pyIndex (c : Record) (k v dflt : PyVal) (h : pyIndex c k = .ok v) :
    pyGet c k dflt = v := by
  unfold pyIndex at h
  unfold pyGet
  cases hf : c.find? (fun kv => pyEq kv.1 k) with
  | none => rw [hf] at h; cases h
  | some kv => rw [hf] at h; cases h; rfl

theorem contactMatches_ok (q : String) (c : Record)
    (hn : ∃ s, pyGet c (.str "name") (.str "") = .str s)
    (hp : ∃ s, pyGet c (.str "phone") (.str "") = .str s) :
    ContactManager.contactMatches (pyLower q) c = .ok (specSearchHit q c) := by
  obtain ⟨sn, hsn⟩ := hn
  obtain ⟨sp, hsp⟩ := hp
  unfold ContactManager.contactMatches ContactManager.lowerField
  rw [hsn, hsp]
  simp only []
  unfold specSearchHit specNameHit specPhoneHit
  rw [hsn, hsp]
  simp only [fieldStr]
  cases h : pyContains (pyLower sn) (pyLower q) <;> simp [h]

theorem searchFilterIdx_ok (q : String) (ps : List (Nat × Record))
    (hf : ∀ p ∈ ps, (∃ s, pyGet p.2 (.str "name") (.str "") = .str s) ∧
                    (∃ s, pyGet p.2 (.str "phone") (.str "") = .str s)) :
    ContactManager.searchFilterIdx (pyLower q) ps =
      .ok (ps.filter (fun p => specSearchHit q p.2)) := by
  induction ps with
  | nil => rfl
  | cons p rest ih =>
    have hp := hf p (List.mem_cons_self p rest)
    have ihr := ih (fun p2 h2 => hf p2 (List.mem_cons_of_mem p h2))
    cases p with
    | mk i c =>
      unfold ContactManager.searchFilterIdx
      rw [contactMatches_ok q c hp.1 hp.2, ihr]
      cases h : specSearchHit q c <;> simp [List.filter_cons, h]

theorem printResults_ok (rs : Store)
    (h : ∀ c ∈ rs, (∃ v, pyIndex c (.str "name") = .ok v) ∧
                   (∃ v, pyIndex c (.str "phone") = .ok v)) :
    ContactManager.printResults rs = .ok () := by
  induction rs with
  | nil => rfl
  | cons c rest ih =>
    obtain ⟨⟨vn, hvn⟩, ⟨vp, hvp⟩⟩ := h c (List.mem_cons_self c rest)
    unfold ContactManager.printResults
    rw [hvn, hvp]
    exact ih (fun c2 h2 => h c2 (List.mem_cons_of_mem c h2))

theorem mem_enumFrom_snd {α : Type} (l : List α) :
    ∀ (n : Nat) (p : Nat × α), p ∈ l.enumFrom n → p.2 ∈ l := by
  induction l with
  | nil => intro n p h; cases h
  | cons x xs ih =>
    intro n p h
    rcases List.mem_cons.1 h with rfl | h2
    · exact List.mem_cons_self x xs
    · exact List.mem_cons_of_mem x (ih (n + 1) p h2)

theorem mem_enum_snd {α : Type} (l : List α) (p : Nat × α) (h : p ∈ l.enum) : p.2 ∈ l :=
  mem_enumFrom_snd l 0 p h

theorem filter_or_of_right_false (l : List Record) (p r : Record → Bool)
    (h : ∀ c ∈ l, r c = false) :
    l.filter (fun c => p c || r c) = l.filter p := by
  induction l with
  | nil => rfl
  | cons c rest ih =>
    have hc := h c (List.mem_cons_self c rest)
    have ihr := ih (fun c2 h2 => h c2 (List.mem_cons_of_mem c h2))
    simp only [List.filter_cons, hc, Bool.or_false, ihr]

/-- C4: `search_contacts` returns exactly the records whose name or
phone contains the (stripped) query case-insensitively, in store
order — it IS the filter by the spec's predicate; and when the query
hits exactly one record's name and no record's phone, the result is
exactly that record. -/
theorem search_contacts_exact (contacts : Store) (input : String)
    (hf : ∀ c ∈ contacts, (∃ s, pyIndex c (.str "name") = .ok (.str s)) ∧
                          (∃ s, pyIndex c (.str "phone") = .ok (.str s))) :
    ContactManager.search_contacts contacts input =
      .ok (contacts.filter (specSearchHit (pyStrip input))) ∧
    (∀ c₀ : Record,
      contacts.filter (specNameHit (pyStrip input)) = [c₀] →
      (∀ c ∈ contacts, specPhoneHit (pyStrip input) c = false) →
      contacts.filter (specSearchHit (pyStrip input)) = [c₀]) := by
  constructor
  · have hf2 : ∀ c ∈ contacts, (∃ s, pyGet c (.str "name") (.str "") = .str s) ∧
        (∃ s, pyGet c (.str "phone") (.str "") = .str s) := by
      intro c hc
      obtain ⟨⟨sn, hsn⟩, ⟨sp, hsp⟩⟩ := hf c hc
      exact ⟨⟨sn, pyGet_of_pyIndex c _ _ _ hsn⟩, ⟨sp, pyGet_of_pyIndex c _ _ _ hsp⟩⟩
    cases hcs : contacts with
    | nil => rfl
    | cons c0 rest =>
      rw [← hcs]
      have hne : contacts.isEmpty = false := by rw [hcs]; rfl
      unfold ContactManager.search_contacts ContactManager.searchPairs
      rw [hne]
      simp only [Bool.false_eq_true, if_false]
      rw [searchFilterIdx_ok (pyStrip input) contacts.enum
        (fun p h2 => hf2 p.2 (mem_enum_snd contacts p h2))]
      simp only []
      have hres : (contacts.enum.filter (fun p => specSearchHit (pyStrip input) p.2)).map
          Prod.snd = contacts.filter (specSearchHit (pyStrip input)) := by
        have h2 := List.filter_map (p := specSearchHit (pyStrip input)) Prod.snd contacts.enum
        rw [List.enum_map_snd] at h2
        exact h2.symm
      rw [hres]
      cases hemp : (contacts.filter (specSearchHit (pyStrip input))).isEmpty
      · have hpr : ContactManager.printResults
            (contacts.filter (specSearchHit (pyStrip input))) = .ok () := by
          apply printResults_ok
          intro c hc
          obtain ⟨⟨sn, hsn⟩, ⟨sp, hsp⟩⟩ := hf c (List.mem_of_mem_filter hc)
          exact ⟨⟨.str sn, hsn⟩, ⟨.str sp, hsp⟩⟩
        simp [hpr]
      · rfl
  · intro c₀ hname hphone
    have : contacts.filter (fun c => specNameHit (pyStrip input) c ||
        specPhoneHit (pyStrip input) c) = contacts.filter (specNameHit (pyStrip input)) :=
      filter_or_of_right_false contacts _ _ hphone
    unfold specSearchHit
    rw [this, hname]

/-- Witness for `search_contacts_exact`: searching "LIC" hits exactly
the record named "Alice" (case-insensitively) and no phone. -/
theorem search_contacts_exact_witness :
    (∀ c ∈ [[(.str "id", .int 1), (.str "name", .str "Alice"), (.str "phone", .str "555")],
            [(.str "id", .int 2), (.str "name", .str "Bob"), (.str "phone", .str "777")]],
      (∃ s, pyIndex c (.str "name") = .ok (.str s)) ∧
      (∃ s, pyIndex c (.str "phone") = .ok (.str s))) ∧
    ContactManager.search_contacts
      [[(.str "id", .int 1), (.str "name", .str "Alice"), (.str "phone", .str "555")],
       [(.str "id", .int 2), (.str "name", .str "Bob"), (.str "phone", .str "777")]] "LIC" =
      .ok [[(.str "id", .int 1), (.str "name", .str "Alice"), (.str "phone", .str "555")]] := by
  have hf : ∀ c ∈ [[(PyVal.str "id", PyVal.int 1), (PyVal.str "name", PyVal.str "Alice"),
        (PyVal.str "phone", PyVal.str "555")],
       [(PyVal.str "id", PyVal.int 2), (PyVal.str "name", PyVal.str "Bob"),
        (PyVal.str "phone", PyVal.str "777")]],
      (∃ s, pyIndex c (.str "name") = .ok (.str s)) ∧
      (∃ s, pyIndex c (.str "phone") = .ok (.str s)) := by
    intro c hc
    rcases List.mem_cons.1 hc with rfl | hc2
    · exact ⟨⟨"Alice", by simp [pyIndex, List.find?]⟩, ⟨"555", by simp [pyIndex, List.find?]⟩⟩
    rcases List.mem_cons.1 hc2 with rfl | hc3
    · exact ⟨⟨"Bob", by simp [pyIndex, List.find?]⟩, ⟨"777", by simp [pyIndex, List.find?]⟩⟩
    · cases hc3
  refine ⟨hf, ?_⟩
  have h := (search_contacts_exact _ "LIC" hf).1
  rw [h]
  have hga : pyGet [(PyVal.str "id", PyVal.int 1), (PyVal.str "name", PyVal.str "Alice"),
      (PyVal.str "phone", PyVal.str "555")] (.str "name") (.str "") = .str "Alice" := by
    simp [pyGet, List.find?]
  have hgb : pyGet [(PyVal.str "id", PyVal.int 2), (PyVal.str "name", PyVal.str "Bob"),
      (PyVal.str "phone", PyVal.str "777")] (.str "name") (.str "") = .str "Bob" := by
    simp [pyGet, List.find?]
  have hgbp : pyGet [(PyVal.str "id", PyVal.int 2), (PyVal.str "name", PyVal.str "Bob"),
      (PyVal.str "phone", PyVal.str "777")] (.str "phone") (.str "") = .str "777" := by
    simp [pyGet, List.find?]
  have h1 : specSearchHit (pyStrip "LIC")
      [(PyVal.str "id", PyVal.int 1), (PyVal.str "name", PyVal.str "Alice"),
       (PyVal.str "phone", PyVal.str "555")] = true := by
    unfold specSearchHit specNameHit
    rw [hga]
    rw [show pyContains (pyLower (fieldStr (.str "Alice"))) (pyLower (pyStrip "LIC")) = true
      from by decide]
    rw [Bool.true_or]
  have h2 : specSearchHit (pyStrip "LIC")
      [(PyVal.str "id", PyVal.int 2), (PyVal.str "name", PyVal.str "Bob"),
       (PyVal.str "phone", PyVal.str "777")] = false := by
    unfold specSearchHit specNameHit specPhoneHit
    rw [hgb, hgbp]
    decide
  simp only [List.filter_cons, h1, h2, List.filter_nil]
  simp

end Search

section UpdateBlank

@[simp] theorem pyEq_list_str (xs : List PyVal) (s : String) :
    pyEq (.list xs) (.str s) = false := by
  simp [pyEq]

@[simp] theorem pyEq_dict_str (kvs : List (PyVal × PyVal)) (s : String) :
    pyEq (.dict kvs) (.str s) = false := by
  simp [pyEq]

theorem pyEq_str_right (x : PyVal) (s : String) (h : pyEq x (.str s) = true) : x = .str s := by
  cases x <;> simp_all

theorem find?_dictInsert_ne (c : Record) (s1 s2 : String) (v : PyVal) (h : (s1 == s2) = false) :
    (dictInsert c (.str s1) v).find? (fun kv => pyEq kv.1 (.str s2)) =
      c.find? (fun kv => pyEq kv.1 (.str s2)) := by
  induction c with
  | nil => simp [dictInsert, List.find?, h]
  | cons kv rest ih =>
    unfold dictInsert
    cases hk : pyEq kv.1 (.str s1) with
    | true =>
      have hkv : kv.1 = .str s1 := pyEq_str_right kv.1 s1 hk
      simp only [hk, if_true]
      rw [List.find?_cons, List.find?_cons]
      simp [hkv, h]
    | false =>
      simp only [hk, Bool.false_eq_true, if_false]
      rw [List.find?_cons, List.find?_cons]
      cases hp : pyEq kv.1 (.str s2) <;> simp [hp, ih]

theorem find?_dictInsert_same (c : Record) (s : String) (v : PyVal) :
    ∃ k, (dictInsert c (.str s) v).find? (fun kv => pyEq kv.1 (.str s)) = some (k, v) := by
  induction c with
  | nil => exact ⟨.str s, by simp [dictInsert, List.find?]⟩
  | cons kv rest ih =>
    unfold dictInsert
    cases hk : pyEq kv.1 (.str s) with
    | true => exact ⟨kv.1, by simp [List.find?, hk]⟩
    | false =>
      obtain ⟨k, hk2⟩ := ih
      exact ⟨k, by simp [List.find?, hk, hk2]⟩

theorem pyGet_dictInsert_same (c : Record) (s : String) (v d : PyVal) :
    pyGet (dictInsert c (.str s) v) (.str s) d = v := by
  obtain ⟨k, hk⟩ := find?_dictInsert_same c s v
  unfold pyGet
  rw [hk]

theorem pyGet_dictInsert_ne (c : Record) (s1 s2 : String) (v d : PyVal)
    (h : (s1 == s2) = false) :
    pyGet (dictInsert c (.str s1) v) (.str s2) d = pyGet c (.str s2) d := by
  unfold pyGet
  rw [find?_dictInsert_ne c s1 s2 v h]

theorem pyIndex_dictInsert_ne (c : Record) (s1 s2 : String) (v : PyVal)
    (h : (s1 == s2) = false) :
    pyIndex (dictInsert c (.str s1) v) (.str s2) = pyIndex c (.str s2) := by
  unfold pyIndex
  rw [find?_dictInsert_ne c s1 s2 v h]

theorem set_getD_self {α : Type} (l : List α) : ∀ (i : Nat) (d : α),
    l.set i (l.getD i d) = l := by
  induction l with
  | nil => intro i d; rfl
  | cons x xs ih =>
    intro i d
    cases i with
    | zero => rfl
    | succ n => show x :: xs.set n (xs.getD n d) = x :: xs; rw [ih n d]

/-- C5: a blank (whitespace-only) input for an editable field keeps the
field's current value — stated per field, for any mix of other inputs —
and an update performed with all-blank inputs leaves the whole store
exactly as it was, in both applications. -/
theorem update_blank_inputs_keep :
    (∀ (c : Record) (nIn pIn eIn aIn : String) (d : PyVal),
      (pyStrip nIn = "" → pyGet (ContactManager.applyContactEdits c nIn pIn eIn aIn)
        (.str "name") d = pyGet c (.str "name") d) ∧
      (pyStrip pIn = "" → pyGet (ContactManager.applyContactEdits c nIn pIn eIn aIn)
        (.str "phone") d = pyGet c (.str "phone") d) ∧
      (pyStrip eIn = "" → pyGet (ContactManager.applyContactEdits c nIn pIn eIn aIn)
        (.str "email") d = pyGet c (.str "email") d) ∧
      (pyStrip aIn = "" → pyGet (ContactManager.applyContactEdits c nIn pIn eIn aIn)
        (.str "address") d = pyGet c (.str "address") d)) ∧
    (∀ (contacts : Store) (q : String) (choice : Option Nat) (nIn pIn eIn aIn : String),
      pyStrip nIn = "" → pyStrip pIn = "" → pyStrip eIn = "" → pyStrip aIn = "" →
      (ContactManager.update_contact contacts q choice nIn pIn eIn aIn).1 = contacts) ∧
    (∀ (t : Record) (dIn duIn noIn : String) (d : PyVal),
      (pyStrip dIn = "" → pyGet (TodoManager.applyTaskEdits t dIn duIn noIn)
        (.str "description") d = pyGet t (.str "description") d) ∧
      (pyStrip duIn = "" → pyGet (TodoManager.applyTaskEdits t dIn duIn noIn)
        (.str "due_date") d = pyGet t (.str "due_date") d) ∧
      (pyStrip noIn = "" → pyGet (TodoManager.applyTaskEdits t dIn duIn noIn)
        (.str "notes") d = pyGet t (.str "notes") d)) ∧
    (∀ (tasks : Store) (idIn dIn duIn noIn : String),
      pyStrip dIn = "" → pyStrip duIn = "" → pyStrip noIn = "" →
      (TodoManager.update_task tasks idIn dIn duIn noIn).1 = tasks) := by
  refine ⟨?_, ?_, ?_, ?_⟩
  · intro c nIn pIn eIn aIn d
    refine ⟨?_, ?_, ?_, ?_⟩
    · intro hn
      unfold ContactManager.applyContactEdits
      rw [hn]
      simp only [ne_eq, not_true_eq_false, if_false, ite_false]
      split_ifs <;> simp [pyGet_dictInsert_ne]
    · intro hp
      unfold ContactManager.applyContactEdits
      rw [hp]
      simp only [ne_eq, not_true_eq_false, if_false, ite_false]
      split_ifs <;> simp [pyGet_dictInsert_ne]
    · intro he
      unfold ContactManager.applyContactEdits
      rw [he]
      simp only [ne_eq, not_true_eq_false, if_false, ite_false]
      split_ifs <;> simp [pyGet_dictInsert_ne]
    · intro ha
      unfold ContactManager.applyContactEdits
      rw [ha]
      simp only [ne_eq, not_true_eq_false, if_false, ite_false]
      split_ifs <;> simp [pyGet_dictInsert_ne]
  · intro contacts q choice nIn pIn eIn aIn hn hp he ha
    have happly : ∀ c : Record, ContactManager.applyContactEdits c nIn pIn eIn aIn = c := by
      intro c
      unfold ContactManager.applyContactEdits
      rw [hn, hp, he, ha]
      simp
    unfold ContactManager.update_contact
    simp only [happly, set_getD_self]
    repeat' split
    all_goals rfl
  · intro t dIn duIn noIn d
    refine ⟨?_, ?_, ?_⟩
    · intro hd
      unfold TodoManager.applyTaskEdits
      rw [hd]
      simp only [ne_eq, not_true_eq_false, if_false, ite_false]
      split_ifs <;> simp [pyGet_dictInsert_ne]
    · intro hdu
      unfold TodoManager.applyTaskEdits
      rw [hdu]
      simp only [ne_eq, decide_not, decide_True, Bool.not_true, Bool.false_and,
        Bool.false_eq_true, if_false, ite_false]
      split_ifs <;> simp [pyGet_dictInsert_ne]
    · intro hno
      unfold TodoManager.applyTaskEdits
      rw [hno]
      simp only [ne_eq, not_true_eq_false, if_false, ite_false]
      split_ifs <;> simp [pyGet_dictInsert_ne]
  · intro tasks idIn dIn duIn noIn hd hdu hno
    have happly : ∀ t : Record, TodoManager.applyTaskEdits t dIn duIn noIn = t := by
      intro t
      unfold TodoManager.applyTaskEdits
      rw [hd, hdu, hno]
      simp
    unfold TodoManager.update_task
    simp only [happly, set_getD_self]
    repeat' split
    all_goals rfl

/-- Witness for `update_blank_inputs_keep`: an update of a concrete
store with whitespace-only inputs leaves it unchanged. -/
theorem update_blank_inputs_keep_witness :
    pyStrip " " = "" ∧
    (ContactManager.update_contact
      [[(.str "id", .int 1), (.str "name", .str "Ann"), (.str "phone", .str "5"),
        (.str "email", .str "e"), (.str "address", .str "A")]] "ann" (some 1)
      " " " " " " " ").1 =
      [[(.str "id", .int 1), (.str "name", .str "Ann"), (.str "phone", .str "5"),
        (.str "email", .str "e"), (.str "address", .str "A")]] ∧
    (TodoManager.update_task
      [[(.str "id", .int 1), (.str "description", .str "milk"), (.str "completed", .bool false),
        (.str "due_date", .str ""), (.str "notes", .str "")]] "1" " " " " " ").1 =
      [[(.str "id", .int 1), (.str "description", .str "milk"), (.str "completed", .bool false),
        (.str "due_date", .str ""), (.str "notes", .str "")]] :=
  ⟨by decide,
   update_blank_inputs_keep.2.1 _ "ann" (some 1) " " " " " " " "
     (by decide) (by decide) (by decide) (by decide),
   update_blank_inputs_keep.2.2.2 _ "1" " " " " " "
     (by decide) (by decide) (by decide)⟩

end UpdateBlank

section DeleteNotFound

/-- C6 (amended): for a nonempty store and a parseable identifier
other than 0 that matches no record, `delete_task` reports "not found"
and returns the store unchanged, whatever the confirmation input. (On
an empty store the function returns right after the listing without
the "not found" report, and the identifier 0 — which also matches no
record — triggers the cancellation message instead: see the
counterexample.) -/
theorem delete_task_not_found (tasks : Store) (idIn confirmIn : String) (n : Int)
    (hl : TodoManager.list_tasks tasks = .ok ())
    (hne : tasks.isEmpty = false)
    (hp : pyParseInt idIn = some n) (h0 : ¬ n = 0)
    (hf : ∀ t ∈ tasks, pyEq (pyGet t (.str "id") .none) (.int n) = false) :
    TodoManager.delete_task tasks idIn confirmIn = (tasks, .ok .notFound) := by
  have hfind : TodoManager.find_task_by_id tasks n = Option.none := by
    unfold TodoManager.find_task_by_id
    exact List.find?_eq_none.2 (fun t ht => by rw [hf t ht]; exact Bool.false_ne_true)
  unfold TodoManager.delete_task
  simp [hl, hne, hp, h0, hfind]

/-- Witness for `delete_task_not_found` at a concrete store and id. -/
theorem delete_task_not_found_witness :
    TodoManager.delete_task [[(.str "id", .int 1), (.str "description", .str "x")]] "5" "y" =
      ([[(.str "id", .int 1), (.str "description", .str "x")]], .ok .notFound) :=
  delete_task_not_found _ "5" "y" 5
    (by simp [TodoManager.list_tasks, pyIndex, List.find?])
    rfl (by decide) (by decide)
    (by intro t ht
        rcases List.mem_singleton.1 ht with rfl
        simp [pyGet, List.find?])

/-- C6 counterexample: the identifier 0 matches no record of the
store, yet `delete_task` reports the cancellation message rather than
"Task not found."; likewise an empty store (where any identifier
matches no record) returns after the listing without the "not found"
report. The store is left unchanged in both cases. -/
theorem delete_zero_reports_cancelled :
    (∀ t ∈ [[(.str "id", .int 1), (.str "description", .str "x")]],
      pyEq (pyGet t (.str "id") .none) (.int 0) = false) ∧
    TodoManager.delete_task [[(.str "id", .int 1), (.str "description", .str "x")]] "0" "y" =
      ([[(.str "id", .int 1), (.str "description", .str "x")]], .ok .cancelled) ∧
    TodoManager.TaskOutcome.cancelled ≠ TodoManager.TaskOutcome.notFound ∧
    TodoManager.delete_task [] "0" "y" = ([], .ok .emptyList) ∧
    TodoManager.TaskOutcome.emptyList ≠ TodoManager.TaskOutcome.notFound := by
  refine ⟨?_, ?_, by decide, by rfl, by decide⟩
  · intro t ht
    rcases List.mem_singleton.1 ht with rfl
    simp [pyGet, List.find?]
  · have hl : TodoManager.list_tasks [[(.str "id", .int 1), (.str "description", .str "x")]] =
        .ok () := by
      simp [TodoManager.list_tasks, pyIndex, List.find?]
    have hp : pyParseInt "0" = some 0 := by decide
    unfold TodoManager.delete_task
    simp [hl, hp]

end DeleteNotFound

section Create

theorem flatStore_append (s : Store) (r : Record) (hs : flatStore s) (hr : flatRecord r) :
    flatStore (s ++ [r]) := by
  intro r2 h2
  rcases List.mem_append.1 h2 with h3 | h3
  · exact hs r2 h3
  · rw [List.mem_singleton.1 h3]; exact hr

theorem save_contacts_flat (s : Store) (h : flatStore s) :
    ContactManager.save_contacts s = .ok (.valid (.list (s.map .dict))) := by
  unfold ContactManager.save_contacts
  rw [dumpLoadVal, dumpLoadList_flat s h]

theorem save_tasks_flat (s : Store) (h : flatStore s) :
    TodoManager.save_tasks s = .ok (.valid (.list (s.map .dict))) := by
  unfold TodoManager.save_tasks
  rw [dumpLoadVal, dumpLoadList_flat s h]

theorem flat_new_contact (gid : Int) (n p e a : String) :
    flatRecord [(.str "id", .int gid), (.str "name", .str n), (.str "phone", .str p),
                (.str "email", .str e), (.str "address", .str a)] := by
  constructor
  · intro kv hkv
    simp only [List.mem_cons, List.not_mem_nil, or_false] at hkv
    rcases hkv with rfl | rfl | rfl | rfl | rfl <;> exact ⟨rfl, rfl⟩
  · simp [recKeys]

theorem flat_new_task (gid : Int) (d du no : String) :
    flatRecord [(.str "id", .int gid), (.str "description", .str d),
                (.str "completed", .bool false), (.str "due_date", .str du),
                (.str "notes", .str no)] := by
  constructor
  · intro kv hkv
    simp only [List.mem_cons, List.not_mem_nil, or_false] at hkv
    rcases hkv with rfl | rfl | rfl | rfl | rfl <;> exact ⟨rfl, rfl⟩
  · simp [recKeys]

theorem pyGet_id_head (gid : Int) (rest : Record) (d : PyVal) :
    pyGet ((.str "id", .int gid) :: rest) (.str "id") d = .int gid := by
  unfold pyGet
  rw [List.find?_cons]
  simp

/-- A successful `add_contact` appends exactly one record, carrying the
freshly generated id, regardless of how the save turns out. -/
theorem add_contact_fst (contacts : Store) (n p e a : String)
    (hn : ¬ pyStrip n = "") (hp : ¬ pyStrip p = "") :
    (ContactManager.add_contact contacts n p e a).1 =
      contacts ++ [[(.str "id", .int (ContactManager.generate_new_id contacts)),
                    (.str "name", .str (pyStrip n)), (.str "phone", .str (pyStrip p)),
                    (.str "email", .str (pyStrip e)), (.str "address", .str (pyStrip a))]] := by
  unfold ContactManager.add_contact
  simp only [hn, hp, decide_False, Bool.or_self, Bool.false_eq_true, if_false, ite_false]
  cases hs : ContactManager.save_contacts (contacts ++
      [[(.str "id", .int (ContactManager.generate_new_id contacts)),
        (.str "name", .str (pyStrip n)), (.str "phone", .str (pyStrip p)),
        (.str "email", .str (pyStrip e)), (.str "address", .str (pyStrip a))]]) <;>
    simp [hs]

/-- C7: creation appends (and saves) exactly when the required fields
are non-blank after stripping — name and phone for a contact, the
description for a task; a blank required field leaves the store
untouched and skips the save entirely. -/
theorem add_validates_required_fields :
    (∀ (contacts : Store) (n p e a : String), (pyStrip n = "" ∨ pyStrip p = "") →
      ContactManager.add_contact contacts n p e a = (contacts, .ok Option.none)) ∧
    (∀ (contacts : Store) (n p e a : String), ¬ pyStrip n = "" → ¬ pyStrip p = "" →
      flatStore contacts →
      ∃ f, ContactManager.add_contact contacts n p e a =
        (contacts ++ [[(.str "id", .int (ContactManager.generate_new_id contacts)),
                       (.str "name", .str (pyStrip n)), (.str "phone", .str (pyStrip p)),
                       (.str "email", .str (pyStrip e)), (.str "address", .str (pyStrip a))]],
         .ok (some f))) ∧
    (∀ (tasks : Store) (d du no : String), pyStrip d = "" →
      TodoManager.add_task tasks d du no = (tasks, .ok Option.none)) ∧
    (∀ (tasks : Store) (d du no : String), ¬ pyStrip d = "" → flatStore tasks →
      ∃ f, TodoManager.add_task tasks d du no =
        (tasks ++ [[(.str "id", .int (TodoManager.generate_new_id tasks)),
                    (.str "description", .str (pyStrip d)), (.str "completed", .bool false),
                    (.str "due_date", .str (if pyStrip du ≠ "" && validDate (pyStrip du)
                      then pyStrip du else "")),
                    (.str "notes", .str (pyStrip no))]], .ok (some f))) := by
  refine ⟨?_, ?_, ?_, ?_⟩
  · intro contacts n p e a h
    unfold ContactManager.add_contact
    rcases h with h | h <;> simp [h]
  · intro contacts n p e a hn hp hflat
    have hsave := save_contacts_flat _
      (flatStore_append contacts _ hflat (flat_new_contact
        (ContactManager.generate_new_id contacts) (pyStrip n) (pyStrip p)
        (pyStrip e) (pyStrip a)))
    unfold ContactManager.add_contact
    simp only [hn, hp, decide_False, Bool.or_self, Bool.false_eq_true, if_false, ite_false]
    rw [hsave]
    exact ⟨_, rfl⟩
  · intro tasks d du no h
    unfold TodoManager.add_task
    simp [h]
  · intro tasks d du no hd hflat
    have hsave := save_tasks_flat _
      (flatStore_append tasks _ hflat (flat_new_task (TodoManager.generate_new_id tasks)
        (pyStrip d) (if pyStrip du ≠ "" && validDate (pyStrip du) then pyStrip du else "")
        (pyStrip no)))
    unfold TodoManager.add_task
    simp only [hd, decide_False, Bool.false_eq_true, if_false, ite_false]
    rw [hsave]
    exact ⟨_, rfl⟩

/-- Witness for `add_validates_required_fields`: a blank phone blocks
the contact; a valid task is appended with id 1 and saved. -/
theorem add_validates_required_fields_witness :
    ContactManager.add_contact [] "Ann" "  " "e" "a" = ([], .ok Option.none) ∧
    (¬ pyStrip "milk" = "") ∧ flatStore ([] : Store) ∧
    (∃ f, TodoManager.add_task [] "milk" "" "" =
      ([[(.str "id", .int (TodoManager.generate_new_id [])),
         (.str "description", .str (pyStrip "milk")), (.str "completed", .bool false),
         (.str "due_date", .str (if pyStrip "" ≠ "" && validDate (pyStrip "")
           then pyStrip "" else "")),
         (.str "notes", .str (pyStrip ""))]], .ok (some f))) :=
  ⟨add_validates_required_fields.1 [] "Ann" "  " "e" "a" (Or.inr (by decide)),
   by decide, by decide,
   add_validates_required_fields.2.2.2 [] "milk" "" "" (by decide) (by decide)⟩

end Create

section CreateChain

/-- Each successful creation strictly raises the next generated id. -/
theorem generate_new_id_step (contacts : Store) (n p e a : String)
    (hn : ¬ pyStrip n = "") (hp : ¬ pyStrip p = "") :
    ContactManager.generate_new_id contacts <
      ContactManager.generate_new_id (ContactManager.add_contact contacts n p e a).1 := by
  rw [add_contact_fst contacts n p e a hn hp]
  apply lt_generate_new_id _
    [(.str "id", .int (ContactManager.generate_new_id contacts)),
     (.str "name", .str (pyStrip n)), (.str "phone", .str (pyStrip p)),
     (.str "email", .str (pyStrip e)), (.str "address", .str (pyStrip a))]
  · exact List.mem_append_right _ (List.mem_singleton.2 rfl)
  · rw [pyGet_id_head]; rfl

theorem assignedIds_ge (inputs : List (String × String × String × String)) :
    ∀ contacts : Store, (∀ i ∈ inputs, ¬ pyStrip i.1 = "" ∧ ¬ pyStrip i.2.1 = "") →
      ∀ y ∈ assignedIds contacts inputs, ContactManager.generate_new_id contacts ≤ y := by
  induction inputs with
  | nil => intro contacts _ y hy; cases hy
  | cons i rest ih =>
    intro contacts hv y hy
    have hv1 := hv i (List.mem_cons_self i rest)
    rcases List.mem_cons.1 hy with rfl | hy2
    · exact le_rfl
    · have hstep := generate_new_id_step contacts i.1 i.2.1 i.2.2.1 i.2.2.2 hv1.1 hv1.2
      have := ih (ContactManager.add_contact contacts i.1 i.2.1 i.2.2.1 i.2.2.2).1
        (fun j hj => hv j (List.mem_cons_of_mem i hj)) y hy2
      omega

/-- C8: starting from any store, N successful creations (non-blank
name and phone) add exactly N records, and the N assigned identifiers
are strictly increasing in creation order — hence pairwise distinct. -/
theorem create_chain_ids (contacts : Store) (inputs : List (String × String × String × String))
    (hv : ∀ i ∈ inputs, ¬ pyStrip i.1 = "" ∧ ¬ pyStrip i.2.1 = "") :
    (assignedIds contacts inputs).length = inputs.length ∧
    (addChain contacts inputs).length = contacts.length + inputs.length ∧
    List.Pairwise (· < ·) (assignedIds contacts inputs) ∧
    List.Chain' (· < ·) (assignedIds contacts inputs) ∧
    List.Pairwise (· ≠ ·) (assignedIds contacts inputs) := by
  induction inputs generalizing contacts with
  | nil =>
    exact ⟨rfl, by simp [addChain], List.Pairwise.nil, List.chain'_nil, List.Pairwise.nil⟩
  | cons i rest ih =>
    have hv1 := hv i (List.mem_cons_self i rest)
    have hvr : ∀ j ∈ rest, ¬ pyStrip j.1 = "" ∧ ¬ pyStrip j.2.1 = "" :=
      fun j hj => hv j (List.mem_cons_of_mem i hj)
    obtain ⟨ih1, ih2, ih3, _, _⟩ :=
      ih (ContactManager.add_contact contacts i.1 i.2.1 i.2.2.1 i.2.2.2).1 hvr
    have hstep := generate_new_id_step contacts i.1 i.2.1 i.2.2.1 i.2.2.2 hv1.1 hv1.2
    have hlt : ∀ y ∈ assignedIds
        (ContactManager.add_contact contacts i.1 i.2.1 i.2.2.1 i.2.2.2).1 rest,
        ContactManager.generate_new_id contacts < y := by
      intro y hy
      have := assignedIds_ge rest _ hvr y hy
      omega
    have hpw : List.Pairwise (· < ·) (assignedIds contacts (i :: rest)) := by
      show List.Pairwise (· < ·) (ContactManager.generate_new_id contacts :: _)
      exact List.Pairwise.cons hlt ih3
    refine ⟨?_, ?_, hpw, hpw.chain', hpw.imp (fun h => ne_of_lt h)⟩
    · show (ContactManager.generate_new_id contacts :: _).length = rest.length + 1
      rw [List.length_cons, ih1]
    · show (addChain (ContactManager.add_contact contacts i.1 i.2.1 i.2.2.1 i.2.2.2).1
        rest).length = contacts.length + (rest.length + 1)
      rw [ih2, add_contact_fst contacts i.1 i.2.1 i.2.2.1 i.2.2.2 hv1.1 hv1.2]
      rw [List.length_append]
      simp
      omega

/-- Witness for `create_chain_ids`: two creations from the empty store
assign the strictly increasing ids 1 and 2. -/
theorem create_chain_ids_witness :
    (∀ i ∈ [("Ann", "5", "", ""), ("Bob", "7", "", "")],
      ¬ pyStrip i.1 = "" ∧ ¬ pyStrip i.2.1 = "") ∧
    (assignedIds [] [("Ann", "5", "", ""), ("Bob", "7", "", "")]).length = 2 ∧
    (addChain [] [("Ann", "5", "", ""), ("Bob", "7", "", "")]).length = 0 + 2 ∧
    List.Pairwise (· < ·) (assignedIds [] [("Ann", "5", "", ""), ("Bob", "7", "", "")]) ∧
    List.Chain' (· < ·) (assignedIds [] [("Ann", "5", "", ""), ("Bob", "7", "", "")]) ∧
    List.Pairwise (· ≠ ·) (assignedIds [] [("Ann", "5", "", ""), ("Bob", "7", "", "")]) := by
  have hv : ∀ i ∈ [("Ann", "5", "", ""), ("Bob", "7", "", "")],
      ¬ pyStrip i.1 = "" ∧ ¬ pyStrip i.2.1 = "" := by decide
  have h := create_chain_ids [] [("Ann", "5", "", ""), ("Bob", "7", "", "")] hv
  exact ⟨hv, h.1, h.2.1, h.2.2.1, h.2.2.2.1, h.2.2.2.2⟩

end CreateChain

section Password

theorem passPool_empty_iff (uu ul ud us : Bool) :
    (passPool uu ul ud us = "") ↔ (uu = false ∧ ul = false ∧ ud = false ∧ us = false) := by
  cases uu <;> cases ul <;> cases ud <;> cases us <;> decide

theorem generate_password_eq (length : Int) (uu ul ud us : Bool) (pick : Nat → Nat)
    (hL : ¬ length ≤ 0) (hE : ¬ passPool uu ul ud us = "") :
    PasswordGenerator.generate_password length uu ul ud us pick =
      .ok (String.mk ((List.range length.toNat).map
        (fun i => (passPool uu ul ud us).toList.getD
          (pick i % (passPool uu ul ud us).toList.length) ' '))) := by
  unfold PasswordGenerator.generate_password
  rw [if_neg hL]
  simp only []
  rw [if_neg (show ¬ ((if ul then PasswordGenerator.ascii_lowercase else "") ++
      (if uu then PasswordGenerator.ascii_uppercase else "") ++
      (if ud then PasswordGenerator.ascii_digits else "") ++
      (if us then PasswordGenerator.ascii_punctuation else "") = "") from hE)]
  rfl

/-- C9: `generate_password` fails exactly when the length is
non-positive or no character set is enabled, its only failure is
`ValueError`, and a produced password has exactly `length` characters,
each drawn from the union of the enabled sets. -/
theorem generate_password_spec (length : Int) (uu ul ud us : Bool) (pick : Nat → Nat) :
    ((PasswordGenerator.generate_password length uu ul ud us pick).isOk = false ↔
      (length ≤ 0 ∨ (uu = false ∧ ul = false ∧ ud = false ∧ us = false))) ∧
    (∀ e, PasswordGenerator.generate_password length uu ul ud us pick = .error e →
      e = .valueError) ∧
    (∀ s, PasswordGenerator.generate_password length uu ul ud us pick = .ok s →
      s.length = length.toNat ∧
      ∀ c ∈ s.toList,
        (ul = true ∧ c ∈ PasswordGenerator.ascii_lowercase.toList) ∨
        (uu = true ∧ c ∈ PasswordGenerator.ascii_uppercase.toList) ∨
        (ud = true ∧ c ∈ PasswordGenerator.ascii_digits.toList) ∨
        (us = true ∧ c ∈ PasswordGenerator.ascii_punctuation.toList)) := by
  by_cases hL : length ≤ 0
  · have hgen : PasswordGenerator.generate_password length uu ul ud us pick =
        .error .valueError := by
      unfold PasswordGenerator.generate_password
      rw [if_pos hL]
    rw [hgen]
    refine ⟨?_, ?_, ?_⟩
    · simp [Except.isOk, Except.toBool, hL]
    · intro e he; cases he; rfl
    · intro s hs; cases hs
  · by_cases hE : passPool uu ul ud us = ""
    · have hgen : PasswordGenerator.generate_password length uu ul ud us pick =
          .error .valueError := by
        unfold PasswordGenerator.generate_password
        rw [if_neg hL]
        simp only []
        rw [if_pos (show (if ul then PasswordGenerator.ascii_lowercase else "") ++
            (if uu then PasswordGenerator.ascii_uppercase else "") ++
            (if ud then PasswordGenerator.ascii_digits else "") ++
            (if us then PasswordGenerator.ascii_punctuation else "") = "" from hE)]
      rw [hgen]
      refine ⟨?_, ?_, ?_⟩
      · simp [Except.isOk, Except.toBool]
        exact Or.inr ((passPool_empty_iff uu ul ud us).1 hE)
      · intro e he; cases he; rfl
      · intro s hs; cases hs
    · rw [generate_password_eq length uu ul ud us pick hL hE]
      have hlen : 0 < (passPool uu ul ud us).toList.length := by
        rcases Nat.eq_zero_or_pos (passPool uu ul ud us).toList.length with h0 | h0
        · exact absurd (String.ext (List.length_eq_zero.1 h0)) hE
        · exact h0
      refine ⟨?_, ?_, ?_⟩
      · simp only [Except.isOk, Except.toBool]
        constructor
        · intro h; cases h
        · intro h
          rcases h with h | h
          · exact absurd h hL
          · exact absurd ((passPool_empty_iff uu ul ud us).2 h) hE
      · intro e he; cases he
      · intro s hs
        cases hs
        have hseg : ∀ (b : Bool) (t : String) (c : Char),
            c ∈ (if b then t else "").toList → b = true ∧ c ∈ t.toList := by
          intro b t c hmem2
          cases b
          · simp only [Bool.false_eq_true, if_false, ite_false] at hmem2
            cases hmem2
          · exact ⟨rfl, by simpa using hmem2⟩
        constructor
        · have hsm : ∀ (l : List Char), (String.mk l).length = l.length := fun l => rfl
          rw [hsm, List.length_map, List.length_range]
        · intro c hc
          have hc2 : c ∈ (List.range length.toNat).map
              (fun i => (passPool uu ul ud us).toList.getD
                (pick i % (passPool uu ul ud us).toList.length) ' ') := hc
          rw [List.mem_map] at hc2
          obtain ⟨i, _, hci⟩ := hc2
          have hmem : c ∈ (passPool uu ul ud us).toList := by
            rw [← hci]
            have hmod := Nat.mod_lt (pick i) hlen
            simp only [List.getD_eq_getElem?_getD, List.getElem?_eq_getElem hmod,
              Option.getD_some]
            exact List.getElem_mem hmod
          have : c ∈ ((if ul then PasswordGenerator.ascii_lowercase else "").toList ++
              (if uu then PasswordGenerator.ascii_uppercase else "").toList ++
              (if ud then PasswordGenerator.ascii_digits else "").toList ++
              (if us then PasswordGenerator.ascii_punctuation else "").toList) := by
            have hdata : (passPool uu ul ud us).toList =
                (if ul then PasswordGenerator.ascii_lowercase else "").toList ++
                (if uu then PasswordGenerator.ascii_uppercase else "").toList ++
                (if ud then PasswordGenerator.ascii_digits else "").toList ++
                (if us then PasswordGenerator.ascii_punctuation else "").toList := by
              show (passPool uu ul ud us).data = _
              unfold passPool
              rw [String.data_append, String.data_append, String.data_append]
              rfl
            rw [← hdata]
            exact hmem
          rcases List.mem_append.1 this with hm | hm4
          · rcases List.mem_append.1 hm with hm2 | hm3
            · rcases List.mem_append.1 hm2 with hmlc | hmuc
              · exact Or.inl (hseg ul _ c hmlc)
              · exact Or.inr (Or.inl (hseg uu _ c hmuc))
            · exact Or.inr (Or.inr (Or.inl (hseg ud _ c hm3)))
          · exact Or.inr (Or.inr (Or.inr (hseg us _ c hm4)))

/-- Witness for `generate_password_spec`: length 4 with only digits
enabled yields a 4-character password over the digits. -/
theorem generate_password_spec_witness :
    ∀ s, PasswordGenerator.generate_password 4 false false true false (fun _ => 0) = .ok s →
      s.length = (4 : Int).toNat ∧
      ∀ c ∈ s.toList,
        (false = true ∧ c ∈ PasswordGenerator.ascii_lowercase.toList) ∨
        (false = true ∧ c ∈ PasswordGenerator.ascii_uppercase.toList) ∨
        (true = true ∧ c ∈ PasswordGenerator.ascii_digits.toList) ∨
        (false = true ∧ c ∈ PasswordGenerator.ascii_punctuation.toList) :=
  (generate_password_spec 4 false false true false (fun _ => 0)).2.2


end Password

section Toggle

theorem findTaskIdx_lt_length (tasks : Store) (n : Int) :
    ∀ i, TodoManager.findTaskIdx tasks n = some i → i < tasks.length := by
  induction tasks with
  | nil => intro i h; cases h
  | cons t rest ih =>
    intro i h
    unfold TodoManager.findTaskIdx at h
    by_cases hp : pyEq (pyGet t (.str "id") .none) (.int n) = true
    · rw [if_pos hp] at h
      cases h
      exact Nat.succ_pos _
    · rw [if_neg hp] at h
      cases hidx : TodoManager.findTaskIdx rest n with
      | none => rw [hidx] at h; cases h
      | some j =>
        rw [hidx] at h
        cases h
        exact Nat.succ_lt_succ (ih j hidx)

theorem findTaskIdx_found_pyEq (tasks : Store) (n : Int) :
    ∀ i, TodoManager.findTaskIdx tasks n = some i →
      pyEq (pyGet (tasks.getD i []) (.str "id") .none) (.int n) = true := by
  induction tasks with
  | nil => intro i h; cases h
  | cons t rest ih =>
    intro i h
    unfold TodoManager.findTaskIdx at h
    by_cases hp : pyEq (pyGet t (.str "id") .none) (.int n) = true
    · rw [if_pos hp] at h
      cases h
      exact hp
    · rw [if_neg hp] at h
      cases hidx : TodoManager.findTaskIdx rest n with
      | none => rw [hidx] at h; cases h
      | some j =>
        rw [hidx] at h
        cases h
        exact ih j hidx

theorem findTaskIdx_set_self (tasks : Store) (n : Int) :
    ∀ (i : Nat) (t' : Record), TodoManager.findTaskIdx tasks n = some i →
      pyEq (pyGet t' (.str "id") .none) (.int n) = true →
      TodoManager.findTaskIdx (tasks.set i t') n = some i := by
  induction tasks with
  | nil => intro i t' h; cases h
  | cons t rest ih =>
    intro i t' h ht
    unfold TodoManager.findTaskIdx at h
    by_cases hp : pyEq (pyGet t (.str "id") .none) (.int n) = true
    · rw [if_pos hp] at h
      cases h
      show TodoManager.findTaskIdx (t' :: rest) n = some 0
      unfold TodoManager.findTaskIdx
      rw [if_pos ht]
    · rw [if_neg hp] at h
      cases hidx : TodoManager.findTaskIdx rest n with
      | none => rw [hidx] at h; cases h
      | some j =>
        rw [hidx] at h
        cases h
        show TodoManager.findTaskIdx (t :: rest.set j t') n = some (j + 1)
        unfold TodoManager.findTaskIdx
        rw [if_neg hp, ih j t' hidx ht]
        rfl

theorem list_tasks_mem_ok (tasks : Store) (h : TodoManager.list_tasks tasks = .ok ()) :
    ∀ t ∈ tasks, (∃ v, pyIndex t (.str "id") = .ok v) ∧
                 (∃ v, pyIndex t (.str "description") = .ok v) := by
  induction tasks with
  | nil => intro t ht; cases ht
  | cons t0 rest ih =>
    unfold TodoManager.list_tasks at h
    cases hid : pyIndex t0 (.str "id") with
    | error e => rw [hid] at h; cases h
    | ok v1 =>
      rw [hid] at h
      cases hd : pyIndex t0 (.str "description") with
      | error e => rw [hd] at h; cases h
      | ok v2 =>
        rw [hd] at h
        intro t ht
        rcases List.mem_cons.1 ht with rfl | ht2
        · exact ⟨⟨v1, hid⟩, ⟨v2, hd⟩⟩
        · exact ih h t ht2

theorem list_tasks_set (tasks : Store) :
    ∀ (i : Nat) (t' : Record), TodoManager.list_tasks tasks = .ok () →
      (∃ v, pyIndex t' (.str "id") = .ok v) → (∃ v, pyIndex t' (.str "description") = .ok v) →
      TodoManager.list_tasks (tasks.set i t') = .ok () := by
  induction tasks with
  | nil => intro i t' h _ _; exact h
  | cons t0 rest ih =>
    intro i t' h hid hd
    unfold TodoManager.list_tasks at h
    cases hid0 : pyIndex t0 (.str "id") with
    | error e => rw [hid0] at h; cases h
    | ok v1 =>
      rw [hid0] at h
      cases hd0 : pyIndex t0 (.str "description") with
      | error e => rw [hd0] at h; cases h
      | ok v2 =>
        rw [hd0] at h
        cases i with
        | zero =>
          obtain ⟨va, hva⟩ := hid
          obtain ⟨vb, hvb⟩ := hd
          show TodoManager.list_tasks (t' :: rest) = .ok ()
          unfold TodoManager.list_tasks
          rw [hva, hvb]
          exact h
        | succ j =>
          show TodoManager.list_tasks (t0 :: rest.set j t') = .ok ()
          unfold TodoManager.list_tasks
          rw [hid0, hd0]
          exact ih j t' h hid hd

theorem dictInsert_dictInsert (c : Record) (s : String) (v v2 : PyVal) :
    dictInsert (dictInsert c (.str s) v) (.str s) v2 = dictInsert c (.str s) v2 := by
  induction c with
  | nil =>
    show dictInsert [(.str s, v)] (.str s) v2 = [(.str s, v2)]
    unfold dictInsert
    simp
  | cons kv rest ih =>
    cases hk : pyEq kv.1 (.str s) with
    | true =>
      have h1 : dictInsert (kv :: rest) (.str s) v = (kv.1, v) :: rest := by
        unfold dictInsert; rw [if_pos hk]
      have h2 : dictInsert (kv :: rest) (.str s) v2 = (kv.1, v2) :: rest := by
        unfold dictInsert; rw [if_pos hk]
      have h3 : dictInsert ((kv.1, v) :: rest) (.str s) v2 = (kv.1, v2) :: rest := by
        unfold dictInsert; rw [if_pos hk]
      rw [h1, h3, h2]
    | false =>
      have h1 : dictInsert (kv :: rest) (.str s) v = kv :: dictInsert rest (.str s) v := by
        rw [dictInsert, if_neg (by simp [hk])]
      have h2 : dictInsert (kv :: rest) (.str s) v2 = kv :: dictInsert rest (.str s) v2 := by
        rw [dictInsert, if_neg (by simp [hk])]
      have h3 : dictInsert (kv :: dictInsert rest (.str s) v) (.str s) v2 =
          kv :: dictInsert (dictInsert rest (.str s) v) (.str s) v2 := by
        rw [dictInsert, if_neg (by simp [hk])]
      rw [h1, h3, ih, h2]

theorem dictInsert_existing (c : Record) (k v : PyVal) (h : pyIndex c k = .ok v) :
    dictInsert c k v = c := by
  induction c with
  | nil => cases h
  | cons kv rest ih =>
    unfold pyIndex at h
    rw [List.find?_cons] at h
    unfold dictInsert
    cases hk : pyEq kv.1 k with
    | true =>
      rw [hk] at h
      simp only [if_true]
      simp only [] at h
      cases h
      rfl
    | false =>
      rw [hk] at h
      simp only [Bool.false_eq_true, if_false]
      rw [ih (by unfold pyIndex; exact h)]

theorem getD_set_self {α : Type} (l : List α) :
    ∀ (i : Nat) (a d : α), i < l.length → (l.set i a).getD i d = a := by
  induction l with
  | nil => intro i a d h; cases h
  | cons x xs ih =>
    intro i a d h
    cases i with
    | zero => rfl
    | succ j => exact ih j a d (Nat.lt_of_succ_lt_succ h)

/-- A found `toggle_completion` sets exactly the found position to the
record with its completion flag replaced by the negated truthiness of
the old one, whatever the save outcome. -/
theorem toggle_completion_found (tasks : Store) (idIn : String) (n : Int) (i : Nat) (b : Bool)
    (hl : TodoManager.list_tasks tasks = .ok ())
    (hp : pyParseInt idIn = some n) (h0 : ¬ n = 0)
    (hi : TodoManager.findTaskIdx tasks n = some i)
    (hb : pyGet (tasks.getD i []) (.str "completed") (.bool false) = .bool b) :
    (TodoManager.toggle_completion tasks idIn).1 =
      tasks.set i (dictInsert (tasks.getD i []) (.str "completed") (.bool !b)) := by
  have hne : tasks.isEmpty = false := by
    cases tasks with
    | nil => cases hi
    | cons t rest => rfl
  unfold TodoManager.toggle_completion
  rw [hl, hne, hp]
  simp only [h0, if_neg, Bool.false_eq_true, if_false, hi, ite_false]
  rw [hb]
  simp only [pyTruthy]
  cases hs : TodoManager.save_tasks
    (tasks.set i (dictInsert (tasks.getD i []) (.str "completed") (.bool !b))) <;>
    simp [hs]

/-- C10: toggling the completion of a task found by its id flips its
boolean `completed` flag, and toggling it twice restores the entire
store — every field of every task — to exactly its original state. -/
theorem toggle_twice_restores (tasks : Store) (idIn : String) (n : Int) (i : Nat) (b : Bool)
    (hl : TodoManager.list_tasks tasks = .ok ())
    (hp : pyParseInt idIn = some n) (h0 : ¬ n = 0)
    (hi : TodoManager.findTaskIdx tasks n = some i)
    (hc : pyIndex (tasks.getD i []) (.str "completed") = .ok (.bool b)) :
    pyGet ((TodoManager.toggle_completion tasks idIn).1.getD i [])
      (.str "completed") (.bool false) = .bool !b ∧
    (TodoManager.toggle_completion (TodoManager.toggle_completion tasks idIn).1 idIn).1 =
      tasks := by
  have hlen := findTaskIdx_lt_length tasks n i hi
  have hb : pyGet (tasks.getD i []) (.str "completed") (.bool false) = .bool b :=
    pyGet_of_pyIndex _ _ _ _ hc
  have hstep1 := toggle_completion_found tasks idIn n i b hl hp h0 hi hb
  have hgd1 : (TodoManager.toggle_completion tasks idIn).1.getD i [] =
      dictInsert (tasks.getD i []) (.str "completed") (.bool !b) := by
    rw [hstep1]
    exact getD_set_self tasks i _ [] hlen
  have hflip : pyGet ((TodoManager.toggle_completion tasks idIn).1.getD i [])
      (.str "completed") (.bool false) = .bool !b := by
    rw [hgd1]
    exact pyGet_dictInsert_same _ "completed" _ _
  refine ⟨hflip, ?_⟩
  have htmem : tasks.getD i [] ∈ tasks := by
    have : tasks.getD i [] = tasks[i] := by
      rw [List.getD_eq_getElem?_getD, List.getElem?_eq_getElem hlen]
      rfl
    rw [this]
    exact List.getElem_mem hlen
  obtain ⟨⟨vid, hvid⟩, ⟨vd, hvd⟩⟩ := list_tasks_mem_ok tasks hl _ htmem
  have hl1 : TodoManager.list_tasks (TodoManager.toggle_completion tasks idIn).1 = .ok () := by
    rw [hstep1]
    exact list_tasks_set tasks i _ hl
      ⟨vid, by rw [pyIndex_dictInsert_ne _ "completed" "id" _ (by decide)]; exact hvid⟩
      ⟨vd, by rw [pyIndex_dictInsert_ne _ "completed" "description" _ (by decide)]; exact hvd⟩
  have hid1 : pyEq (pyGet (dictInsert (tasks.getD i []) (.str "completed") (.bool !b))
      (.str "id") .none) (.int n) = true := by
    rw [pyGet_dictInsert_ne _ "completed" "id" _ _ (by decide)]
    exact findTaskIdx_found_pyEq tasks n i hi
  have hi1 : TodoManager.findTaskIdx (TodoManager.toggle_completion tasks idIn).1 n = some i := by
    rw [hstep1]
    exact findTaskIdx_set_self tasks n i _ hi hid1
  have hb1 : pyGet ((TodoManager.toggle_completion tasks idIn).1.getD i [])
      (.str "completed") (.bool false) = .bool !b := hflip
  have hstep2 := toggle_completion_found (TodoManager.toggle_completion tasks idIn).1
    idIn n i (!b) hl1 hp h0 hi1 hb1
  rw [hstep2, hgd1, hstep1]
  rw [Bool.not_not]
  rw [dictInsert_dictInsert]
  rw [dictInsert_existing _ _ _ hc]
  rw [List.set_set]
  exact set_getD_self tasks i []

/-- Witness for `toggle_twice_restores` on a concrete one-task store. -/
theorem toggle_twice_restores_witness :
    pyGet ((TodoManager.toggle_completion
        [[(.str "id", .int 1), (.str "description", .str "milk"),
          (.str "completed", .bool false), (.str "due_date", .str ""),
          (.str "notes", .str "")]] "1").1.getD 0 [])
      (.str "completed") (.bool false) = .bool true ∧
    (TodoManager.toggle_completion (TodoManager.toggle_completion
        [[(.str "id", .int 1), (.str "description", .str "milk"),
          (.str "completed", .bool false), (.str "due_date", .str ""),
          (.str "notes", .str "")]] "1").1 "1").1 =
      [[(.str "id", .int 1), (.str "description", .str "milk"),
        (.str "completed", .bool false), (.str "due_date", .str ""),
        (.str "notes", .str "")]] :=
  toggle_twice_restores
    [[(.str "id", .int 1), (.str "description", .str "milk"),
      (.str "completed", .bool false), (.str "due_date", .str ""),
      (.str "notes", .str "")]] "1" 1 0 false
    (by simp [TodoManager.list_tasks, pyIndex, List.find?])
    (by decide) (by decide)
    (by unfold TodoManager.findTaskIdx
        rw [if_pos (by simp [pyGet, List.find?])])
    (by simp [pyIndex, List.find?])

end Toggle

